import Mathlib

/-
Verification development for the libmtrace trace summarizer
(`summary.py`).  The script parses the textual output of an allocation
tracer with a line-driven state machine, tracks allocations in three
module-level Python dicts (`backtraces`, `mallocs`, `membt`) and finally
prints a report.  The embedding below mirrors the script: text is
`List Char`, Python dicts become insertion-ordered association lists,
fatal conditions (assert failures, `sys.exit(1)`, uncaught TypeError /
KeyError / ValueError, which all terminate the process with exit code 1)
become an error sum.  Debug prints and blank-line prints are cosmetic and
are not modelled; the report's headers and content lines are.
-/

namespace Mtrace

/-- Values stored in the script's dictionaries and in `allocSize`: the
script mixes Python ints and strings (`malloc`/`realloc` store the size
as the matched decimal string, `calloc` and the align family store an
actual int, `free` stores sentinel strings). -/
inductive PyVal where
  | pint (n : Nat)
  | pstr (s : List Char)
deriving DecidableEq

/-- The seven recognized allocation methods. -/
inductive Method where
  | malloc
  | free
  | realloc
  | calloc
  | aligned_alloc
  | posix_memalign
  | memalign
deriving DecidableEq

/-- One entry of the `backtraces` dict: a call count plus one size list
per method (the Python dict literal at summary.py:184-187). -/
structure Stats where
  count : Nat
  malloc : List PyVal
  free : List PyVal
  realloc : List PyVal
  calloc : List PyVal
  aligned_alloc : List PyVal
  posix_memalign : List PyVal
  memalign : List PyVal
deriving DecidableEq

def emptyStats : Stats :=
  { count := 0, malloc := [], free := [], realloc := [], calloc := [],
    aligned_alloc := [], posix_memalign := [], memalign := [] }

def Stats.methodList (s : Stats) : Method → List PyVal
  | .malloc => s.malloc
  | .free => s.free
  | .realloc => s.realloc
  | .calloc => s.calloc
  | .aligned_alloc => s.aligned_alloc
  | .posix_memalign => s.posix_memalign
  | .memalign => s.memalign

def Stats.appendSize (s : Stats) (m : Method) (v : PyVal) : Stats :=
  match m with
  | .malloc => { s with malloc := s.malloc ++ [v] }
  | .free => { s with free := s.free ++ [v] }
  | .realloc => { s with realloc := s.realloc ++ [v] }
  | .calloc => { s with calloc := s.calloc ++ [v] }
  | .aligned_alloc => { s with aligned_alloc := s.aligned_alloc ++ [v] }
  | .posix_memalign => { s with posix_memalign := s.posix_memalign ++ [v] }
  | .memalign => { s with memalign := s.memalign ++ [v] }

/-- The parser states (the Python `ParsingStatus` enum). -/
inductive ParsingStatus where
  | READY
  | THREAD
  | METHOD
  | BACKTRACE_START
  | BACKTRACE
  | BACKTRACE_END
deriving DecidableEq

/-- Ways the script terminates with exit code 1: `sys.exit(1)` /
`error(...)`, a failed `assert`, and uncaught ValueError / TypeError /
KeyError. -/
inductive Err where
  | exitOne
  | assertionError
  | valueError
  | typeError
  | keyError
deriving DecidableEq

/- ## Insertion-ordered association lists (Python dicts)

A Python dict iterates in insertion order; assignment to an existing key
updates the value in place (keeping the key's position), assignment to a
new key appends, and deletion removes the key's entry. -/

def alookup {V : Type} (k : List Char) : List (List Char × V) → Option V
  | [] => none
  | (k', v) :: rest => if k' = k then some v else alookup k rest

def aset {V : Type} (k : List Char) (v : V) : List (List Char × V) → List (List Char × V)
  | [] => [(k, v)]
  | (k', v') :: rest => if k' = k then (k, v) :: rest else (k', v') :: aset k v rest

def aerase {V : Type} (k : List Char) : List (List Char × V) → List (List Char × V)
  | [] => []
  | (k', v') :: rest => if k' = k then aerase k rest else (k', v') :: aerase k rest

/- ## Text helpers -/

/-- Python `str.rstrip()` whitespace (ASCII subset). -/
def isWS (c : Char) : Bool :=
  c == ' ' || c == '\t' || c == '\n' || c == '\r' || c == Char.ofNat 11 || c == Char.ofNat 12

def rstrip (l : List Char) : List Char :=
  (l.reverse.dropWhile isWS).reverse

/-- Literal-prefix test (our own recursion, so the lemmas are ours). -/
def lstarts : List Char → List Char → Bool
  | [], _ => true
  | _ :: _, [] => false
  | p :: ps, c :: cs => p == c && lstarts ps cs

/-- First maximal digit run in the line (`re.findall(r'\d+', line)[0]`),
`none` when the line has no digit. -/
def firstDigitRun (l : List Char) : Option (List Char) :=
  match l.dropWhile (fun c => !c.isDigit) with
  | [] => none
  | c :: cs => some ((c :: cs).takeWhile Char.isDigit)

/-- Python `int(s)` for a digit string; raises ValueError on `''`. -/
def digitsToNat (l : List Char) : Nat :=
  l.foldl (fun n c => n * 10 + (c.toNat - 48)) 0

def toNatE (l : List Char) : Except Err Nat :=
  if l.isEmpty then .error .valueError else .ok (digitsToNat l)

/- ## BacktraceLine -/

/-- One parsed backtrace frame (class `BacktraceLine`). -/
structure BT where
  path : List Char
  symbol : List Char
  offset : List Char
  address : List Char
deriving DecidableEq

def isDelim (c : Char) : Bool :=
  c == '(' || c == ')' || c == '[' || c == ']'

/-- `re.split` on a character class: cut the list at every character
satisfying `p`, dropping the separators. -/
def splitP (p : Char → Bool) : List Char → List (List Char)
  | [] => [[]]
  | c :: cs =>
    match splitP p cs with
    | [] => [[]]
    | f :: rest => if p c then [] :: f :: rest else (c :: f) :: rest

/-- `BacktraceLine.__init__`: split the line on every `(`/`)`/`[`/`]`,
assert exactly 5 fields, split field 1 on `+`, assert exactly 2 parts.
`none` models the AssertionError (which kills the run). -/
def parseBT (cs : List Char) : Option BT :=
  match splitP isDelim cs with
  | [f0, f1, _f2, f3, _f4] =>
    match splitP (fun c => c == '+') f1 with
    | [s, o] => some { path := f0, symbol := s, offset := o, address := f3 }
    | _ => none
  | _ => none

/-- Substring regex search for the limited patterns the script uses
(literal characters plus `.` as a single-character wildcard; the only
non-empty pattern ever passed is `'libmtrace.so'`). -/
def matchHere : List Char → List Char → Bool
  | [], _ => true
  | _ :: _, [] => false
  | p :: ps, c :: cs => (p == '.' || p == c) && matchHere ps cs

def reSearch (p : List Char) : List Char → Bool
  | [] => matchHere p []
  | c :: cs => matchHere p (c :: cs) || reSearch p cs

/-- Hexadecimal value of a digit string. `BacktraceLine.match` calls
`int(offset, 16)` only when the pattern's offset field is non-empty; the
script's single pattern has an empty offset, so the Python ValueError on
malformed hex digits is unreachable and this total version agrees with
the script on every executed path. -/
def hexDigitVal (c : Char) : Nat :=
  if c.isDigit then c.toNat - 48
  else if 'a' ≤ c && c ≤ 'f' then c.toNat - 87
  else if 'A' ≤ c && c ≤ 'F' then c.toNat - 55
  else 0

def hexVal (l : List Char) : Nat :=
  l.foldl (fun n c => n * 16 + hexDigitVal c) 0

/-- `BacktraceLine.match`: each non-empty pattern field constrains the
frame (path and symbol by regex search, offset by hex value, address by
string equality). -/
def btMatch (self pat : BT) : Bool :=
  (pat.path.isEmpty || reSearch pat.path self.path) &&
  (pat.symbol.isEmpty || reSearch pat.symbol self.symbol) &&
  (pat.offset.isEmpty || hexVal self.offset == hexVal pat.offset) &&
  (pat.address.isEmpty || self.address == pat.address)

/-- `backtrace_filter_out = BacktraceLine('libmtrace.so(+)[]')`. -/
def backtrace_filter_out : BT :=
  { path := "libmtrace.so".data, symbol := [], offset := [], address := [] }

/-- `BacktraceLine.toString`, with the external `c++filt` demangler
abstracted as a pure function `resolve` (the script memoizes it, which
does not change its input-output behaviour). -/
def renderBT (resolve : List Char → List Char) (bt : BT) : List Char :=
  bt.path ++ "(".data ++ resolve bt.symbol ++ "+".data ++ bt.offset ++
    ")[".data ++ bt.address ++ "]".data

/- ## Method-line grammars (the seven regexes) -/

/-- `^malloc\((\d*)\) = (.*)$` (and the shared one-argument shape):
returns (digits, result address). -/
def parseKw1 (kw : List Char) (l : List Char) : Option (List Char × List Char) :=
  if lstarts kw l then
    let t := l.drop kw.length
    let d := t.takeWhile Char.isDigit
    let r := t.dropWhile Char.isDigit
    if lstarts (") = ".data) r then some (d, r.drop 4) else none
  else none

def parseMallocLine (l : List Char) : Option (List Char × List Char) :=
  parseKw1 "malloc(".data l

/-- `^free\((.*)\)$`: the greedy `(.*)` reaches the last `)`, so the
argument is everything strictly between `free(` and the final character,
which must be `)`. -/
def parseFreeLine (l : List Char) : Option (List Char) :=
  if lstarts "free(".data l && decide (6 ≤ l.length) && l.getLast? == some ')' then
    some ((l.drop 5).dropLast)
  else none

/-- Greedy-first-group search for `^realloc\((.*), (\d*)\) = (.*)$`:
the first `(.*)` is maximal, so the `, ` separator that matches is the
rightmost one followed by a digit run and `) = `.  Trying the tail
before the head realizes exactly that. -/
def reallocArgs (cs2 : List Char) : Option (List Char × List Char × List Char) :=
  let d := cs2.takeWhile Char.isDigit
  let r := cs2.dropWhile Char.isDigit
  if lstarts (") = ".data) r then some ([], d, r.drop 4) else none

def reallocSplit : List Char → Option (List Char × List Char × List Char)
  | [] => none
  | c :: cs =>
    match reallocSplit cs with
    | some r => some (c :: r.1, r.2)
    | none =>
      if c = ',' then
        match cs with
        | ' ' :: cs2 => reallocArgs cs2
        | _ => none
      else none

def parseReallocLine (l : List Char) : Option (List Char × List Char × List Char) :=
  if lstarts "realloc(".data l then reallocSplit (l.drop 8) else none

/-- `^KW\((\d*), (\d*)\) = (.*)$` for calloc / aligned_alloc /
posix_memalign / memalign: returns (digits1, digits2, result address). -/
def parseKw2 (kw : List Char) (l : List Char) : Option (List Char × List Char × List Char) :=
  if lstarts kw l then
    let t := l.drop kw.length
    let d1 := t.takeWhile Char.isDigit
    let r1 := t.dropWhile Char.isDigit
    if lstarts ", ".data r1 then
      let t2 := r1.drop 2
      let d2 := t2.takeWhile Char.isDigit
      let r2 := t2.dropWhile Char.isDigit
      if lstarts (") = ".data) r2 then some (d1, d2, r2.drop 4) else none
    else none
  else none

/- ## Parser state -/

def sentinelFreed : List Char := "***ALREADY_FREED**".data

def sentinelRealloced : List Char := "***ALREADY_REALLOCED***".data

/-- The whole mutable state of one run: the parse loop's locals plus the
three module-level dicts and the comment list. -/
structure St where
  status : ParsingStatus
  threadId : Option (List Char)
  method : Option Method
  allocSize : PyVal
  address : Option (List Char)
  currentBackTrace : List Char
  mallocs : List (List Char × PyVal)
  membt : List (List Char × List Char)
  backtraces : List (List Char × Stats)
  comments : List (List Char)
deriving DecidableEq

def initSt : St :=
  { status := .READY, threadId := none, method := none, allocSize := .pint 0,
    address := none, currentBackTrace := [], mallocs := [], membt := [],
    backtraces := [], comments := [] }

/-- The comment / skip test (summary.py:92): blank line or first char
one of space, `-`, `#`. -/
def skippable (l : List Char) : Bool :=
  match l with
  | [] => true
  | c :: _ => c == ' ' || c == '-' || c == '#'

/-- The size recorded by a `free(ADDR)` event (summary.py:118-123):
`null` for the null marker, the ledger's current value when the address
is present, and the string `???` otherwise. -/
def freeSize (m : List (List Char × PyVal)) (a : List Char) : PyVal :=
  if a = "(nil)".data then .pstr "null".data
  else
    match alookup a m with
    | some v => v
    | none => .pstr "???".data

/-- The method-line dispatch (summary.py:107-177).  On entry the THREAD
branch has already set `currentBackTrace`, `threadId` and
`status = BACKTRACE_START` and stripped the `* N ` marker; each regex is
tried in source order and the fall-through is the fatal
`error('Unexpected line ...')`. -/
def handleMethod (st : St) (line : List Char) : Except Err St :=
  match parseMallocLine line with
  | some (ds, addr) =>
    .ok { st with method := some .malloc, allocSize := .pstr ds,
                  mallocs := aset addr (.pstr ds) st.mallocs, address := some addr }
  | none =>
  match parseFreeLine line with
  | some a =>
    .ok { st with method := some .free, allocSize := freeSize st.mallocs a,
                  mallocs := aset a (.pstr sentinelFreed) st.mallocs,
                  membt := aerase a st.membt }
  | none =>
  match parseReallocLine line with
  | some (old, ds, nw) =>
    let m1 := aset nw (.pstr ds) st.mallocs
    let m2 := if old = nw then m1 else aset old (.pstr sentinelRealloced) m1
    .ok { st with method := some .realloc, allocSize := .pstr ds,
                  mallocs := m2, membt := aerase old st.membt, address := some nw }
  | none =>
  match parseKw2 "calloc(".data line with
  | some (d1, d2, addr) =>
    match toNatE d1, toNatE d2 with
    | .ok n1, .ok n2 =>
      .ok { st with method := some .calloc, allocSize := .pint (n1 * n2),
                    mallocs := aset addr (.pint (n1 * n2)) st.mallocs, address := some addr }
    | .error e, _ => .error e
    | .ok _, .error e => .error e
  | none =>
  match parseKw2 "aligned_alloc(".data line with
  | some (_d1, d2, addr) =>
    match toNatE d2 with
    | .ok n2 =>
      .ok { st with method := some .aligned_alloc, allocSize := .pint n2,
                    mallocs := aset addr (.pint n2) st.mallocs, address := some addr }
    | .error e => .error e
  | none =>
  match parseKw2 "posix_memalign(".data line with
  | some (_d1, d2, addr) =>
    match toNatE d2 with
    | .ok n2 =>
      .ok { st with method := some .posix_memalign, allocSize := .pint n2,
                    mallocs := aset addr (.pint n2) st.mallocs, address := some addr }
    | .error e => .error e
  | none =>
  match parseKw2 "memalign(".data line with
  | some (_d1, d2, addr) =>
    match toNatE d2 with
    | .ok n2 =>
      .ok { st with method := some .memalign, allocSize := .pint n2,
                    mallocs := aset addr (.pint n2) st.mallocs, address := some addr }
    | .error e => .error e
  | none => .error .exitOne

/-- Record one event in a stats entry: append the size to the method's
list and bump the call count (summary.py:188-189). -/
def bumpStats (m : Method) (v : PyVal) (s : Stats) : Stats :=
  let s1 := s.appendSize m v
  { s1 with count := s1.count + 1 }

/-- Block finalization at a `]` line (summary.py:182-192): create the
stats entry if missing, bump the count, append the size to the method's
list, and record the live-address backtrace when the event produced an
address.  `method` is always set on reachable states; `none` would be a
Python KeyError (`backtraces[ck][None]`). -/
def finalizeBlock (st : St) : Except Err St :=
  match st.method with
  | none => .error .keyError
  | some m =>
    .ok { st with
      backtraces := aset st.currentBackTrace
        (bumpStats m st.allocSize ((alookup st.currentBackTrace st.backtraces).getD emptyStats))
        st.backtraces,
      membt :=
        match st.address with
        | some a => aset a st.currentBackTrace st.membt
        | none => st.membt,
      status := .READY }

/-- The per-event scratch reset done when a line arrives in READY state
(summary.py:85-91). -/
def threadReset (st : St) : St :=
  { st with threadId := none, method := none, allocSize := PyVal.pint 0,
            address := none, currentBackTrace := [], status := .THREAD }

/-- The THREAD-state header handling (summary.py:97-106): record the
thread id, seed the backtrace key with `Thread {id}` and move to
BACKTRACE_START before the method dispatch. -/
def threadStart (st : St) (tid : List Char) : St :=
  { st with threadId := some tid,
            currentBackTrace := "Thread ".data ++ tid,
            status := .BACKTRACE_START }

/-- The parse loop body once the line has been stripped and the READY
reset applied. -/
def stepBody (resolve : List Char → List Char) (st : St) (line : List Char) : Except Err St :=
  if skippable line then
    .ok (if 1 < line.length then { st with comments := st.comments ++ [line] } else st)
  else
    match st.status with
    | .THREAD =>
      if lstarts "* ".data line then
        match firstDigitRun line with
        | none => .error .exitOne
        | some tid => handleMethod (threadStart st tid) (line.drop (3 + tid.length))
      else .error .assertionError
    | .BACKTRACE_START =>
      if line = "[".data then .ok { st with status := .BACKTRACE }
      else .error .assertionError
    | .BACKTRACE =>
      if line = "]".data then finalizeBlock st
      else
        match parseBT line with
        | none => .error .assertionError
        | some bt =>
          if btMatch bt backtrace_filter_out then .ok st
          else .ok { st with currentBackTrace :=
            (st.currentBackTrace ++
              (if 0 < st.currentBackTrace.length then ['\n'] else []) ++
              renderBT resolve bt) }
    | _ => .ok st

/-- One iteration of the parse loop over one input line
(summary.py:83-199): strip the line, perform the READY reset, then
dispatch. -/
def stepLine (resolve : List Char → List Char) (st0 : St) (raw : List Char) : Except Err St :=
  stepBody resolve (if st0.status = .READY then threadReset st0 else st0) (rstrip raw)

/-- Run the loop over all lines; on a fatal condition return the state
just before the failing line together with the error (the script calls
`sys.exit(1)` / raises at that point). -/
def parseAux (resolve : List Char → List Char) : St → List (List Char) → St × Option Err
  | st, [] => (st, none)
  | st, l :: ls =>
    match stepLine resolve st l with
    | .ok st' => parseAux resolve st' ls
    | .error e => (st, some e)

def parseTrace (resolve : List Char → List Char) (lines : List (List Char)) : St × Option Err :=
  parseAux resolve initSt lines

/- ## Report emission -/

/-- A printed item: a `printHeader` banner or a content line.  Banner
decoration, debug prints and blank lines are cosmetic and omitted. -/
inductive OutItem where
  | header (s : List Char)
  | line (s : List Char)
deriving DecidableEq

/-- The test guarding a "Memory not released" entry
(`len(value) > 0 and value[0] != '*'`) for a string value. -/
def printableStr (s : List Char) : Bool :=
  match s with
  | [] => false
  | c :: _ => c != '*'

def methodName : Method → List Char
  | .malloc => "malloc".data
  | .free => "free".data
  | .realloc => "realloc".data
  | .calloc => "calloc".data
  | .aligned_alloc => "aligned_alloc".data
  | .posix_memalign => "posix_memalign".data
  | .memalign => "memalign".data

/-- The per-stats iteration order: `sorted(stats)` on the dict keys is
alphabetical, with `'count'` skipped. -/
def methodsAlpha : List Method :=
  [.aligned_alloc, .calloc, .free, .malloc, .memalign, .posix_memalign, .realloc]

def reprPy : PyVal → List Char
  | .pint n => Nat.toDigits 10 n
  | .pstr s => s

def joinSep (sep : List Char) : List (List Char) → List Char
  | [] => []
  | [x] => x
  | x :: xs => x ++ sep ++ joinSep sep xs

def renderPyList (l : List PyVal) : List Char :=
  '[' :: (joinSep ", ".data (l.map reprPy) ++ [']'])

/-- The lines printed for one backtrace entry (summary.py:210-217). -/
def entryLines (k : List Char) (s : Stats) : List OutItem :=
  OutItem.line k ::
  OutItem.line ("* Calls: ".data ++ Nat.toDigits 10 s.count) ::
  methodsAlpha.filterMap (fun m =>
    if (s.methodList m).isEmpty then none
    else some (OutItem.line (methodName m ++ ": ".data ++ renderPyList (s.methodList m))))

def emitBacktraces : List (List Char × Stats) → List OutItem
  | [] => []
  | (k, s) :: rest => entryLines k s ++ emitBacktraces rest

/-- Stable ascending insertion by call count.  Python's `sorted` with
`key=lambda item: item[1]['count']` is a stable ascending sort, and a
stable sort by a fixed key is unique, so this insertion sort is
extensionally the same function. -/
def sInsert (x : List Char × Stats) : List (List Char × Stats) → List (List Char × Stats)
  | [] => [x]
  | y :: ys => if y.2.count < x.2.count then y :: sInsert x ys else x :: y :: ys

def sortByCount (l : List (List Char × Stats)) : List (List Char × Stats) :=
  l.foldr sInsert []

def addrSizeHeader : List Char := "   Address     Size".data

/-- The "Memory not released" loop (summary.py:221-225).  `len(value)`
on an int value raises TypeError; `membt[key]` on a missing key raises
KeyError; both kill the run after the output produced so far. -/
def emitMem : List (List Char × PyVal) → List (List Char × List Char) → List OutItem × Option Err
  | [], _ => ([], none)
  | (k, v) :: rest, mb =>
    match v with
    | .pint _ => ([], some .typeError)
    | .pstr s =>
      if printableStr s then
        match alookup k mb with
        | none => ([OutItem.line addrSizeHeader, OutItem.line (k ++ ' ' :: s)], some .keyError)
        | some bt =>
          let r := emitMem rest mb
          (OutItem.line addrSizeHeader :: OutItem.line (k ++ ' ' :: s) ::
             OutItem.line ("backtrace: ".data ++ bt) :: r.1, r.2)
      else emitMem rest mb

/-- `summary()`: the Backtraces section over the count-sorted dict, then
the Memory-not-released section; exit code 1 if the latter raised. -/
def summaryOut (st : St) : List OutItem × Nat :=
  let r := emitMem st.mallocs st.membt
  (OutItem.header "Backtraces".data :: emitBacktraces (sortByCount st.backtraces) ++
     OutItem.header "Memory not released".data :: r.1,
   match r.2 with
   | none => 0
   | some _ => 1)

/-- The whole program: parse, then (only on success) the Comments
section and `summary()`.  A parse-time fatal error exits 1 with no
report sections at all. -/
def runProgram (resolve : List Char → List Char) (lines : List (List Char)) :
    List OutItem × Nat :=
  match parseTrace resolve lines with
  | (_, some _) => ([OutItem.header "Parsing".data], 1)
  | (st, none) =>
    let s := summaryOut st
    (OutItem.header "Parsing".data :: OutItem.header "Comments".data ::
       (st.comments.map OutItem.line ++ s.1), s.2)

/-- A method line that matches none of the seven allocation-call
grammars: the condition under which the dispatch falls through to
`error('Unexpected line ...')`. -/
def methodNoMatch (l : List Char) : Bool :=
  (parseMallocLine l).isNone && (parseFreeLine l).isNone && (parseReallocLine l).isNone &&
  (parseKw2 "calloc(".data l).isNone && (parseKw2 "aligned_alloc(".data l).isNone &&
  (parseKw2 "posix_memalign(".data l).isNone && (parseKw2 "memalign(".data l).isNone

/-- A ledger value that is one of the `***...` sentinels: a string
starting with `*` (exactly the values the report loop skips). -/
def startsStar (v : PyVal) : Bool :=
  match v with
  | .pstr (c :: _) => c == '*'
  | _ => false

/-- The liveness bound: every non-sentinel ledger entry has a
live-backtrace binding, except possibly the pending event's address
while its backtrace block is still open. -/
def LiveBound (st : St) : Prop :=
  ∀ e ∈ st.mallocs, startsStar e.2 = false →
    (alookup e.1 st.membt).isSome = true ∨
      ((st.status = .BACKTRACE_START ∨ st.status = .BACKTRACE) ∧ st.address = some e.1)

/-- The parser invariant: ledger keys are distinct (it is a dict) and
the liveness bound holds. -/
def Inv (st : St) : Prop :=
  (st.mallocs.map Prod.fst).Nodup ∧ LiveBound st

/-- One complete single-frame `malloc(8) = 0x1` event block recorded by
thread `tid` (used to compare grouping across threads and frames). -/
def mkEv (tid : Char) (F : List Char) : List (List Char) :=
  ['*' :: ' ' :: tid :: ' ' :: "malloc(8) = 0x1".data, "[".data, F, "]".data]

/-- The aggregation key such an event produces: the `Thread {id}` seed
plus the newline-joined filtered, resolved frame rendering. -/
def evKey (resolve : List Char → List Char) (tid : Char) (bt : BT) : List Char :=
  ("Thread ".data ++ [tid]) ++ ['\n'] ++ renderBT resolve bt

/- ## Per-claim concrete traces -/

def c1Trace : List (List Char) :=
  ["* 1 calloc(2, 8) = 0x10".data, "[".data, "]".data]

def c2Trace : List (List Char) :=
  ["* 1 malloc(8) = 0x1".data, "[".data, "a.so(f+1)[0x2]".data, "]".data,
   "* 2 malloc(8) = 0x1".data, "[".data, "a.so(f+1)[0x2]".data, "]".data]

def c4Trace : List (List Char) :=
  ["* 1 malloc(32) = 0x10".data, "[".data, "a.so(f+1)[0x2]".data, "]".data,
   "* 1 realloc(0x10, 64) = 0x10".data, "[".data, "]".data]

def c5Trace : List (List Char) :=
  ["* 1 free(0x99)".data, "[".data, "]".data]

def c6Trace : List (List Char) :=
  ["* 1 malloc(5) = (nil)".data, "[".data, "]".data]

def c10Trace : List (List Char) :=
  ["* 1 free((nil))".data, "[".data, "]".data,
   "* 1 free((nil))".data, "[".data, "]".data]

/- ## Helper lemmas: association lists -/

theorem alookup_aset_self {V : Type} (k : List Char) (v : V) (m : List (List Char × V)) :
    alookup k (aset k v m) = some v := by
  induction m with
  | nil => simp [aset, alookup]
  | cons e rest ih =>
    obtain ⟨k', v'⟩ := e
    by_cases h : k' = k
    · simp [aset, h, alookup]
    · simp [aset, h, alookup, ih]

theorem alookup_aset_ne {V : Type} (a k : List Char) (v : V) (m : List (List Char × V))
    (h : a ≠ k) : alookup a (aset k v m) = alookup a m := by
  induction m with
  | nil => simp [aset, alookup, Ne.symm h]
  | cons e rest ih =>
    obtain ⟨k', v'⟩ := e
    by_cases hk : k' = k
    · subst hk
      simp [aset, alookup, Ne.symm h]
    · simp [aset, hk, alookup, ih]

theorem alookup_aerase_self {V : Type} (k : List Char) (m : List (List Char × V)) :
    alookup k (aerase k m) = none := by
  induction m with
  | nil => simp [aerase, alookup]
  | cons e rest ih =>
    obtain ⟨k', v'⟩ := e
    by_cases hk : k' = k
    · simp [aerase, hk, ih]
    · simp [aerase, hk, alookup, ih]

theorem alookup_aerase_ne {V : Type} (a k : List Char) (m : List (List Char × V))
    (h : a ≠ k) : alookup a (aerase k m) = alookup a m := by
  induction m with
  | nil => simp [aerase, alookup]
  | cons e rest ih =>
    obtain ⟨k', v'⟩ := e
    by_cases hk : k' = k
    · subst hk
      simp [aerase, alookup, Ne.symm h, ih]
    · simp [aerase, hk, alookup, ih]

/- ## Helper lemmas: text -/

theorem lstarts_self_append (p l : List Char) : lstarts p (p ++ l) = true := by
  induction p with
  | nil => rfl
  | cons c cs ih => simp [lstarts, ih]

theorem takeWhile_digit_append (d r : List Char) (hd : ∀ c ∈ d, c.isDigit) :
    (d ++ r).takeWhile Char.isDigit = d ++ r.takeWhile Char.isDigit := by
  induction d with
  | nil => simp
  | cons c cs ih =>
    simp only [List.cons_append, List.takeWhile_cons, hd c (by simp)]
    simp [ih (fun x hx => hd x (by simp [hx]))]

theorem dropWhile_digit_append (d r : List Char) (hd : ∀ c ∈ d, c.isDigit) :
    (d ++ r).dropWhile Char.isDigit = r.dropWhile Char.isDigit := by
  induction d with
  | nil => simp
  | cons c cs ih =>
    simp only [List.cons_append, List.dropWhile_cons, hd c (by simp)]
    simp [ih (fun x hx => hd x (by simp [hx]))]

theorem rstrip_concat (l : List Char) (c : Char) (h : isWS c = false) :
    rstrip (l ++ [c]) = l ++ [c] := by
  simp [rstrip, List.dropWhile_cons, h]

/- ## Helper lemmas: the seven method-line grammars on well-shaped input -/

theorem parseKw1_concat (kw ds A : List Char) (hds : ∀ c ∈ ds, c.isDigit) :
    parseKw1 kw (kw ++ (ds ++ ") = ".data ++ A)) = some (ds, A) := by
  unfold parseKw1
  rw [lstarts_self_append]
  simp only [if_true]
  rw [List.drop_left]
  rw [show ds ++ ") = ".data ++ A = ds ++ (") = ".data ++ A) by simp]
  rw [takeWhile_digit_append ds _ hds, dropWhile_digit_append ds _ hds]
  have h1 : (") = ".data ++ A).takeWhile Char.isDigit = [] := rfl
  have h2 : (") = ".data ++ A).dropWhile Char.isDigit = ") = ".data ++ A := rfl
  rw [h1, h2, lstarts_self_append]
  simp only [if_true, List.append_nil]
  rw [show (4 : Nat) = (") = ".data).length from rfl, List.drop_left]

theorem parseFreeLine_concat (A : List Char) :
    parseFreeLine ("free(".data ++ A ++ ")".data) = some A := by
  unfold parseFreeLine
  have h1 : lstarts "free(".data ("free(".data ++ A ++ ")".data) = true := by
    rw [show "free(".data ++ A ++ ")".data = "free(".data ++ (A ++ ")".data) by simp]
    exact lstarts_self_append _ _
  have h2 : ("free(".data ++ A ++ ")".data).getLast? = some ')' := by
    rw [show "free(".data ++ A ++ ")".data = ("free(".data ++ A) ++ [')'] by simp]
    exact List.getLast?_concat _
  have h3 : 6 ≤ ("free(".data ++ A ++ ")".data).length := by
    rw [show "free(".data ++ A ++ ")".data = ("free(".data ++ A) ++ [')'] by simp]
    rw [List.length_append, List.length_append]
    have h5 : ("free(".data).length = 5 := rfl
    have h6 : ([')'] : List Char).length = 1 := rfl
    omega
  rw [h1, h2]
  simp only [decide_eq_true h3, beq_self_eq_true, Bool.and_self, Bool.true_and, if_true]
  rw [show "free(".data ++ A ++ ")".data = "free(".data ++ (A ++ [')']) by simp]
  rw [show (5 : Nat) = ("free(".data).length from rfl, List.drop_left, List.dropLast_concat]

theorem rstrip_append_self (pre A : List Char) (hA : A ≠ [])
    (h : ∀ c ∈ A, isWS c = false) : rstrip (pre ++ A) = pre ++ A := by
  obtain ⟨B, c, hBc⟩ : ∃ B c, A = B ++ [c] :=
    ⟨A.dropLast, A.getLast hA, (List.dropLast_append_getLast hA).symm⟩
  subst hBc
  rw [show pre ++ (B ++ [c]) = (pre ++ B) ++ [c] by simp]
  exact rstrip_concat _ _ (h c (by simp))

theorem parseMallocLine_concat (ds A : List Char) (hds : ∀ c ∈ ds, c.isDigit) :
    parseMallocLine ("malloc(".data ++ ds ++ ") = ".data ++ A) = some (ds, A) := by
  have h := parseKw1_concat "malloc(".data ds A hds
  rw [show "malloc(".data ++ (ds ++ ") = ".data ++ A) =
      "malloc(".data ++ ds ++ ") = ".data ++ A by simp] at h
  exact h

theorem parseKw2_concat (kw d1 d2 A : List Char) (h1 : ∀ c ∈ d1, c.isDigit)
    (h2 : ∀ c ∈ d2, c.isDigit) :
    parseKw2 kw (kw ++ (d1 ++ ", ".data ++ (d2 ++ ") = ".data ++ A))) = some (d1, d2, A) := by
  unfold parseKw2
  rw [lstarts_self_append]
  simp only [if_true]
  rw [List.drop_left]
  rw [show d1 ++ ", ".data ++ (d2 ++ ") = ".data ++ A) =
      d1 ++ (", ".data ++ (d2 ++ ") = ".data ++ A)) by simp]
  rw [takeWhile_digit_append d1 _ h1, dropWhile_digit_append d1 _ h1]
  have t1 : (", ".data ++ (d2 ++ ") = ".data ++ A)).takeWhile Char.isDigit = [] := rfl
  have t2 : (", ".data ++ (d2 ++ ") = ".data ++ A)).dropWhile Char.isDigit =
      ", ".data ++ (d2 ++ ") = ".data ++ A) := rfl
  rw [t1, t2, lstarts_self_append]
  simp only [if_true, List.append_nil]
  rw [show (2 : Nat) = (", ".data).length from rfl, List.drop_left]
  rw [show d2 ++ ") = ".data ++ A = d2 ++ (") = ".data ++ A) by simp]
  rw [takeWhile_digit_append d2 _ h2, dropWhile_digit_append d2 _ h2]
  have t3 : (") = ".data ++ A).takeWhile Char.isDigit = [] := rfl
  have t4 : (") = ".data ++ A).dropWhile Char.isDigit = ") = ".data ++ A := rfl
  rw [t3, t4, lstarts_self_append]
  simp only [if_true, List.append_nil]
  rw [show (4 : Nat) = (") = ".data).length from rfl, List.drop_left]

theorem reallocSplit_cons (c : Char) (cs : List Char) :
    reallocSplit (c :: cs) =
      match reallocSplit cs with
      | some r => some (c :: r.1, r.2)
      | none =>
        if c = ',' then
          match cs with
          | ' ' :: cs2 => reallocArgs cs2
          | _ => none
        else none := rfl

theorem reallocSplit_no_comma (l : List Char) (h : ',' ∉ l) : reallocSplit l = none := by
  induction l with
  | nil => rfl
  | cons c cs ih =>
    have hc : ¬(c = ',') := by
      intro hh
      exact h (by simp [hh])
    have hcs : ',' ∉ cs := by
      intro hh
      exact h (by simp [hh])
    rw [reallocSplit_cons, ih hcs]
    simp [hc]

theorem reallocSplit_concat (A ds B : List Char) (hA : ',' ∉ A)
    (hds : ∀ c ∈ ds, c.isDigit) (hB : ',' ∉ B) :
    reallocSplit (A ++ ", ".data ++ (ds ++ ") = ".data ++ B)) = some (A, ds, B) := by
  induction A with
  | nil =>
    have htail : ',' ∉ (' ' :: (ds ++ ") = ".data ++ B)) := by
      intro hh
      simp only [List.mem_cons, List.mem_append] at hh
      rcases hh with hh | hh
      · exact absurd hh.symm (by decide)
      rcases hh with hh | hh
      · rcases hh with hh | hh
        · have := hds ',' hh
          exact absurd this (by decide)
        · revert hh
          decide
      · exact hB hh
    rw [show ([] : List Char) ++ ", ".data ++ (ds ++ ") = ".data ++ B) =
        ',' :: ' ' :: (ds ++ ") = ".data ++ B) by simp]
    rw [reallocSplit_cons, reallocSplit_no_comma _ htail]
    show reallocArgs (ds ++ ") = ".data ++ B) = some ([], ds, B)
    unfold reallocArgs
    have t3 : (") = ".data ++ B).takeWhile Char.isDigit = [] := rfl
    have t4 : (") = ".data ++ B).dropWhile Char.isDigit = ") = ".data ++ B := rfl
    rw [show ds ++ ") = ".data ++ B = ds ++ (") = ".data ++ B) by simp]
    rw [takeWhile_digit_append ds _ hds, dropWhile_digit_append ds _ hds, t3, t4]
    show (if lstarts ") = ".data (") = ".data ++ B) = true
        then some (([] : List Char), ds ++ [], List.drop 4 (") = ".data ++ B)) else none) =
      some ([], ds, B)
    rw [lstarts_self_append]
    simp only [if_true, List.append_nil]
    rw [List.drop_left' (by rfl)]
  | cons a A2 ih =>
    have haA : ',' ∉ A2 := by
      intro hh
      exact hA (by simp [hh])
    rw [show (a :: A2) ++ ", ".data ++ (ds ++ ") = ".data ++ B) =
        a :: (A2 ++ ", ".data ++ (ds ++ ") = ".data ++ B)) by simp]
    rw [reallocSplit_cons, ih haA]

theorem parseReallocLine_concat (A ds B : List Char) (hA : ',' ∉ A)
    (hds : ∀ c ∈ ds, c.isDigit) (hB : ',' ∉ B) :
    parseReallocLine ("realloc(".data ++ A ++ ", ".data ++ ds ++ ") = ".data ++ B) =
      some (A, ds, B) := by
  unfold parseReallocLine
  rw [show "realloc(".data ++ A ++ ", ".data ++ ds ++ ") = ".data ++ B =
      "realloc(".data ++ (A ++ ", ".data ++ (ds ++ ") = ".data ++ B)) by simp]
  rw [lstarts_self_append]
  simp only [if_true]
  rw [List.drop_left' (by rfl)]
  exact reallocSplit_concat A ds B hA hds hB

theorem parseAux_append (resolve : List Char → List Char) (st : St)
    (l1 l2 : List (List Char)) :
    parseAux resolve st (l1 ++ l2) =
      match parseAux resolve st l1 with
      | (st2, none) => parseAux resolve st2 l2
      | (st2, some e) => (st2, some e) := by
  induction l1 generalizing st with
  | nil => rfl
  | cons l ls ih =>
    rw [List.cons_append]
    cases h : stepLine resolve st l with
    | ok st2 =>
      have e1 : parseAux resolve st (l :: (ls ++ l2)) = parseAux resolve st2 (ls ++ l2) := by
        conv_lhs => unfold parseAux
        rw [h]
      have e2 : parseAux resolve st (l :: ls) = parseAux resolve st2 ls := by
        conv_lhs => unfold parseAux
        rw [h]
      rw [e1, e2, ih st2]
    | error e =>
      have e1 : parseAux resolve st (l :: (ls ++ l2)) = (st, some e) := by
        conv_lhs => unfold parseAux
        rw [h]
      have e2 : parseAux resolve st (l :: ls) = (st, some e) := by
        conv_lhs => unfold parseAux
        rw [h]
      rw [e1, e2]

theorem handleMethod_noMatch (st : St) (l : List Char) (h : methodNoMatch l = true) :
    handleMethod st l = .error .exitOne := by
  unfold methodNoMatch at h
  simp only [Bool.and_eq_true, Option.isNone_iff_eq_none] at h
  obtain ⟨⟨⟨⟨⟨⟨h1, h2⟩, h3⟩, h4⟩, h5⟩, h6⟩, h7⟩ := h
  unfold handleMethod
  rw [h1, h2, h3, h4, h5, h6, h7]

theorem printableStr_digits (ds : List Char) (h0 : ds ≠ []) (hd : ∀ c ∈ ds, c.isDigit) :
    printableStr ds = true := by
  cases ds with
  | nil => exact absurd rfl h0
  | cons c cs =>
    have hc := hd c (by simp)
    have : ¬(c = '*') := by
      intro hh
      rw [hh] at hc
      exact absurd hc (by decide)
    simp [printableStr, this]

/- ## Event-level composition lemmas

Each lemma runs the parser over one full event (method line, `[`, `]`)
from an arbitrary READY state and gives the resulting state in closed
form. -/

theorem parseAux_free_event (resolve : List Char → List Char) (st : St) (A : List Char)
    (h : st.status = .READY) :
    parseAux resolve st ["* 1 free(".data ++ A ++ ")".data, "[".data, "]".data] =
      ({ status := .READY, threadId := some ['1'], method := some Method.free,
         allocSize := freeSize st.mallocs A, address := none,
         currentBackTrace := "Thread 1".data,
         mallocs := aset A (PyVal.pstr sentinelFreed) st.mallocs,
         membt := aerase A st.membt,
         backtraces := aset "Thread 1".data
           (bumpStats Method.free (freeSize st.mallocs A)
             ((alookup "Thread 1".data st.backtraces).getD emptyStats))
           st.backtraces,
         comments := st.comments }, none) := by
  have hr : rstrip ("* 1 free(".data ++ A ++ ")".data) = "* 1 free(".data ++ A ++ ")".data := by
    rw [show "* 1 free(".data ++ A ++ ")".data = ("* 1 free(".data ++ A) ++ [')'] by simp]
    exact rstrip_concat _ _ rfl
  have hm : parseMallocLine ("free(".data ++ A ++ ")".data) = none := rfl
  have estep : stepLine resolve st ("* 1 free(".data ++ A ++ ")".data) =
      handleMethod (threadStart (threadReset st) ['1']) ("free(".data ++ A ++ ")".data) := by
    unfold stepLine stepBody
    rw [hr, h]
    rfl
  have ehm : handleMethod (threadStart (threadReset st) ['1']) ("free(".data ++ A ++ ")".data) =
      .ok { status := .BACKTRACE_START, threadId := some ['1'], method := some Method.free,
            allocSize := freeSize st.mallocs A, address := none,
            currentBackTrace := "Thread 1".data,
            mallocs := aset A (PyVal.pstr sentinelFreed) st.mallocs,
            membt := aerase A st.membt,
            backtraces := st.backtraces, comments := st.comments } := by
    unfold handleMethod
    rw [hm, parseFreeLine_concat]
    rfl
  unfold parseAux
  rw [estep.trans ehm]
  rfl

theorem parseAux_realloc_same_event (resolve : List Char → List Char) (st : St)
    (A ds : List Char) (h : st.status = .READY) (hA : A ≠ [])
    (hAc : ∀ c ∈ A, isWS c = false ∧ c ≠ ',') (hds : ∀ c ∈ ds, c.isDigit) :
    parseAux resolve st
        ["* 1 realloc(".data ++ A ++ ", ".data ++ ds ++ ") = ".data ++ A,
         "[".data, "]".data] =
      ({ status := .READY, threadId := some ['1'], method := some Method.realloc,
         allocSize := PyVal.pstr ds, address := some A,
         currentBackTrace := "Thread 1".data,
         mallocs := aset A (PyVal.pstr ds) st.mallocs,
         membt := aset A "Thread 1".data (aerase A st.membt),
         backtraces := aset "Thread 1".data
           (bumpStats Method.realloc (PyVal.pstr ds)
             ((alookup "Thread 1".data st.backtraces).getD emptyStats))
           st.backtraces,
         comments := st.comments }, none) := by
  have hAcomma : ',' ∉ A := by
    intro hm
    exact (hAc ',' hm).2 rfl
  have hr : rstrip ("* 1 realloc(".data ++ A ++ ", ".data ++ ds ++ ") = ".data ++ A) =
      "* 1 realloc(".data ++ A ++ ", ".data ++ ds ++ ") = ".data ++ A :=
    rstrip_append_self _ A hA (fun c hc => (hAc c hc).1)
  have hmM : parseMallocLine ("realloc(".data ++ A ++ ", ".data ++ ds ++ ") = ".data ++ A) =
      none := rfl
  have hmF : parseFreeLine ("realloc(".data ++ A ++ ", ".data ++ ds ++ ") = ".data ++ A) =
      none := rfl
  have estep : stepLine resolve st
        ("* 1 realloc(".data ++ A ++ ", ".data ++ ds ++ ") = ".data ++ A) =
      handleMethod (threadStart (threadReset st) ['1'])
        ("realloc(".data ++ A ++ ", ".data ++ ds ++ ") = ".data ++ A) := by
    unfold stepLine stepBody
    rw [hr, h]
    rfl
  have ehm : handleMethod (threadStart (threadReset st) ['1'])
        ("realloc(".data ++ A ++ ", ".data ++ ds ++ ") = ".data ++ A) =
      .ok { status := .BACKTRACE_START, threadId := some ['1'],
            method := some Method.realloc,
            allocSize := PyVal.pstr ds, address := some A,
            currentBackTrace := "Thread 1".data,
            mallocs := aset A (PyVal.pstr ds) st.mallocs,
            membt := aerase A st.membt,
            backtraces := st.backtraces, comments := st.comments } := by
    unfold handleMethod
    rw [hmM, hmF, parseReallocLine_concat A ds A hAcomma hds hAcomma]
    simp [threadStart, threadReset]
  unfold parseAux
  rw [estep.trans ehm]
  rfl

theorem parseAux_malloc_event (resolve : List Char → List Char) (st : St)
    (ds A : List Char) (h : st.status = .READY) (hA : A ≠ [])
    (hAw : ∀ c ∈ A, isWS c = false) (hds : ∀ c ∈ ds, c.isDigit) :
    parseAux resolve st
        ["* 1 malloc(".data ++ ds ++ ") = ".data ++ A, "[".data, "]".data] =
      ({ status := .READY, threadId := some ['1'], method := some Method.malloc,
         allocSize := PyVal.pstr ds, address := some A,
         currentBackTrace := "Thread 1".data,
         mallocs := aset A (PyVal.pstr ds) st.mallocs,
         membt := aset A "Thread 1".data st.membt,
         backtraces := aset "Thread 1".data
           (bumpStats Method.malloc (PyVal.pstr ds)
             ((alookup "Thread 1".data st.backtraces).getD emptyStats))
           st.backtraces,
         comments := st.comments }, none) := by
  have hr : rstrip ("* 1 malloc(".data ++ ds ++ ") = ".data ++ A) =
      "* 1 malloc(".data ++ ds ++ ") = ".data ++ A :=
    rstrip_append_self _ A hA hAw
  have estep : stepLine resolve st ("* 1 malloc(".data ++ ds ++ ") = ".data ++ A) =
      handleMethod (threadStart (threadReset st) ['1'])
        ("malloc(".data ++ ds ++ ") = ".data ++ A) := by
    unfold stepLine stepBody
    rw [hr, h]
    rfl
  have ehm : handleMethod (threadStart (threadReset st) ['1'])
        ("malloc(".data ++ ds ++ ") = ".data ++ A) =
      .ok { status := .BACKTRACE_START, threadId := some ['1'],
            method := some Method.malloc,
            allocSize := PyVal.pstr ds, address := some A,
            currentBackTrace := "Thread 1".data,
            mallocs := aset A (PyVal.pstr ds) st.mallocs,
            membt := st.membt,
            backtraces := st.backtraces, comments := st.comments } := by
    unfold handleMethod
    rw [parseMallocLine_concat ds A hds]
    rfl
  unfold parseAux
  rw [estep.trans ehm]
  rfl

/- ## Helper lemmas: field counting for the frame splitter -/

theorem splitP_cons (p : Char → Bool) (c : Char) (cs : List Char) :
    splitP p (c :: cs) =
      match splitP p cs with
      | [] => [[]]
      | f :: rest => if p c then [] :: f :: rest else (c :: f) :: rest := rfl

theorem splitP_length (p : Char → Bool) (l : List Char) :
    (splitP p l).length = l.countP p + 1 := by
  induction l with
  | nil => rfl
  | cons c cs ih =>
    rw [splitP_cons]
    cases hs : splitP p cs with
    | nil =>
      rw [hs] at ih
      simp at ih
    | cons f rest =>
      rw [hs] at ih
      simp only [List.length_cons] at ih
      by_cases hp : p c
      · simp only [hp, if_true, List.length_cons, List.countP_cons]
        omega
      · simp only [hp, Bool.false_eq_true, if_false, List.length_cons, List.countP_cons]
        omega

theorem parseBT_none_of_fields (cs : List Char) (h : (splitP isDelim cs).length ≠ 5) :
    parseBT cs = none := by
  unfold parseBT
  rcases hl : splitP isDelim cs with _ | ⟨f0, _ | ⟨f1, _ | ⟨f2, _ | ⟨f3, _ | ⟨f4, _ | ⟨f5, t⟩⟩⟩⟩⟩⟩
  · rfl
  · rfl
  · rfl
  · rfl
  · rfl
  · rw [hl] at h
    simp at h
  · rfl

/- ## Helper lemmas: the stable count sort -/

theorem mem_sInsert (z x : List Char × Stats) (s : List (List Char × Stats)) :
    z ∈ sInsert x s ↔ z = x ∨ z ∈ s := by
  induction s with
  | nil => simp [sInsert]
  | cons y ys ih =>
    by_cases hc : y.2.count < x.2.count
    · rw [show sInsert x (y :: ys) = y :: sInsert x ys by simp [sInsert, hc]]
      rw [List.mem_cons, ih, List.mem_cons]
      tauto
    · rw [show sInsert x (y :: ys) = x :: y :: ys by simp [sInsert, hc]]
      rw [List.mem_cons, List.mem_cons]

theorem sInsert_pairwise (x : List Char × Stats) (s : List (List Char × Stats))
    (hs : s.Pairwise (fun a b => a.2.count ≤ b.2.count)) :
    (sInsert x s).Pairwise (fun a b => a.2.count ≤ b.2.count) := by
  induction s with
  | nil => simp [sInsert]
  | cons y ys ih =>
    rw [List.pairwise_cons] at hs
    obtain ⟨hy, hys⟩ := hs
    by_cases hc : y.2.count < x.2.count
    · rw [show sInsert x (y :: ys) = y :: sInsert x ys by simp [sInsert, hc]]
      rw [List.pairwise_cons]
      refine ⟨?_, ih hys⟩
      intro z hz
      rcases (mem_sInsert z x ys).1 hz with rfl | hz
      · exact Nat.le_of_lt hc
      · exact hy z hz
    · rw [show sInsert x (y :: ys) = x :: y :: ys by simp [sInsert, hc]]
      rw [List.pairwise_cons]
      refine ⟨?_, List.pairwise_cons.mpr ⟨hy, hys⟩⟩
      intro z hz
      rcases List.mem_cons.1 hz with rfl | hz
      · exact Nat.le_of_not_lt hc
      · exact Nat.le_trans (Nat.le_of_not_lt hc) (hy z hz)

theorem sInsert_perm (x : List Char × Stats) (s : List (List Char × Stats)) :
    (sInsert x s).Perm (x :: s) := by
  induction s with
  | nil => simp [sInsert]
  | cons y ys ih =>
    by_cases hc : y.2.count < x.2.count
    · rw [show sInsert x (y :: ys) = y :: sInsert x ys by simp [sInsert, hc]]
      exact (List.Perm.cons y ih).trans (List.Perm.swap x y ys)
    · rw [show sInsert x (y :: ys) = x :: y :: ys by simp [sInsert, hc]]

theorem sortByCount_cons (x : List Char × Stats) (xs : List (List Char × Stats)) :
    sortByCount (x :: xs) = sInsert x (sortByCount xs) := rfl

theorem sortByCount_sorted (l : List (List Char × Stats)) :
    (sortByCount l).Pairwise (fun a b => a.2.count ≤ b.2.count) := by
  induction l with
  | nil => simp [sortByCount]
  | cons x xs ih =>
    rw [sortByCount_cons]
    exact sInsert_pairwise x _ ih

theorem sortByCount_perm (l : List (List Char × Stats)) : (sortByCount l).Perm l := by
  induction l with
  | nil => simp [sortByCount]
  | cons x xs ih =>
    rw [sortByCount_cons]
    exact (sInsert_perm x _).trans (List.Perm.cons x ih)

theorem filter_sInsert_ne (x : List Char × Stats) (s : List (List Char × Stats)) (c : Nat)
    (hc : ¬c = x.2.count) :
    (sInsert x s).filter (fun e => e.2.count == c) = s.filter (fun e => e.2.count == c) := by
  induction s with
  | nil => simp [sInsert, Ne.symm hc]
  | cons y ys ih =>
    by_cases hcmp : y.2.count < x.2.count
    · rw [show sInsert x (y :: ys) = y :: sInsert x ys by simp [sInsert, hcmp]]
      rw [List.filter_cons, List.filter_cons, ih]
    · rw [show sInsert x (y :: ys) = x :: y :: ys by simp [sInsert, hcmp]]
      rw [List.filter_cons]
      have hxc : (x.2.count == c) = false := by
        simp [Ne.symm hc]
      rw [hxc]
      simp

theorem filter_sInsert_eq (x : List Char × Stats) (s : List (List Char × Stats))
    (hs : s.Pairwise (fun a b => a.2.count ≤ b.2.count)) :
    (sInsert x s).filter (fun e => e.2.count == x.2.count) =
      x :: s.filter (fun e => e.2.count == x.2.count) := by
  induction s with
  | nil => simp [sInsert, List.filter]
  | cons y ys ih =>
    rw [List.pairwise_cons] at hs
    obtain ⟨hy, hys⟩ := hs
    by_cases hcmp : y.2.count < x.2.count
    · rw [show sInsert x (y :: ys) = y :: sInsert x ys by simp [sInsert, hcmp]]
      have hyne : (y.2.count == x.2.count) = false := by
        simp
        omega
      rw [List.filter_cons, hyne, ih hys, List.filter_cons, hyne]
      simp
    · rw [show sInsert x (y :: ys) = x :: y :: ys by simp [sInsert, hcmp]]
      rw [List.filter_cons]
      simp

theorem sortByCount_filter (l : List (List Char × Stats)) (c : Nat) :
    (sortByCount l).filter (fun e => e.2.count == c) = l.filter (fun e => e.2.count == c) := by
  induction l with
  | nil => rfl
  | cons x xs ih =>
    rw [sortByCount_cons]
    by_cases hc : c = x.2.count
    · subst hc
      rw [filter_sInsert_eq x _ (sortByCount_sorted xs), ih, List.filter_cons]
      simp
    · rw [filter_sInsert_ne x _ c hc, ih, List.filter_cons]
      have hxc : (x.2.count == c) = false := by
        simp [Ne.symm hc]
      rw [hxc]
      simp

theorem alookup_mem {V : Type} (k : List Char) (v : V) (m : List (List Char × V))
    (h : alookup k m = some v) : (k, v) ∈ m := by
  induction m with
  | nil => simp [alookup] at h
  | cons e rest ih =>
    obtain ⟨k2, v2⟩ := e
    by_cases hk : k2 = k
    · subst hk
      have h2 : v2 = v := by
        simpa [alookup] using h
      subst h2
      exact List.mem_cons_self _ _
    · simp only [alookup, if_neg hk] at h
      exact List.mem_cons_of_mem _ (ih h)

theorem free_line_mem_entryLines (k : List Char) (s : Stats) (h : s.free ≠ []) :
    OutItem.line (methodName Method.free ++ ": ".data ++ renderPyList s.free) ∈
      entryLines k s := by
  unfold entryLines
  refine List.mem_cons_of_mem _ (List.mem_cons_of_mem _ ?_)
  rw [List.mem_filterMap]
  refine ⟨Method.free, by simp [methodsAlpha], ?_⟩
  have he : (Stats.methodList s Method.free).isEmpty = false := by
    show s.free.isEmpty = false
    cases hf : s.free with
    | nil => exact absurd hf h
    | cons a b => rfl
  rw [he]
  rfl

theorem mem_emitBacktraces (x : OutItem) (k : List Char) (s : Stats)
    (l : List (List Char × Stats)) (hm : (k, s) ∈ l) (hx : x ∈ entryLines k s) :
    x ∈ emitBacktraces l := by
  induction l with
  | nil => simp at hm
  | cons e rest ih =>
    obtain ⟨k2, s2⟩ := e
    rcases List.mem_cons.1 hm with he | hm2
    · injection he with h1 h2
      subst h1
      subst h2
      exact List.mem_append_left _ hx
    · exact List.mem_append_right _ (ih hm2)

/- ## Helper lemmas: dict keys and the liveness invariant -/

theorem keys_aset_subset {V : Type} (x k : List Char) (v : V) (m : List (List Char × V))
    (h : x ∈ (aset k v m).map Prod.fst) : x = k ∨ x ∈ m.map Prod.fst := by
  induction m with
  | nil =>
    simp [aset] at h
    exact Or.inl h
  | cons e rest ih =>
    obtain ⟨k2, v2⟩ := e
    by_cases hk : k2 = k
    · rw [show aset k v ((k2, v2) :: rest) = (k, v) :: rest from by simp [aset, hk]] at h
      simp only [List.map_cons, List.mem_cons] at h ⊢
      tauto
    · rw [show aset k v ((k2, v2) :: rest) = (k2, v2) :: aset k v rest from
        by simp [aset, hk]] at h
      simp only [List.map_cons, List.mem_cons] at h ⊢
      rcases h with h | h
      · tauto
      · rcases ih h with h | h
        · tauto
        · tauto

theorem aset_keys_nodup {V : Type} (k : List Char) (v : V) (m : List (List Char × V))
    (h : (m.map Prod.fst).Nodup) : ((aset k v m).map Prod.fst).Nodup := by
  induction m with
  | nil => simp [aset]
  | cons e rest ih =>
    obtain ⟨k2, v2⟩ := e
    rw [List.map_cons, List.nodup_cons] at h
    obtain ⟨hk2, hrest⟩ := h
    by_cases hk : k2 = k
    · rw [show aset k v ((k2, v2) :: rest) = (k, v) :: rest from by simp [aset, hk]]
      rw [List.map_cons, List.nodup_cons]
      exact ⟨hk ▸ hk2, hrest⟩
    · rw [show aset k v ((k2, v2) :: rest) = (k2, v2) :: aset k v rest from
        by simp [aset, hk]]
      rw [List.map_cons, List.nodup_cons]
      refine ⟨?_, ih hrest⟩
      intro hmem
      rcases keys_aset_subset _ _ _ _ hmem with h | h
      · exact hk h
      · exact hk2 h

theorem mem_aset_nodup {V : Type} (e : List Char × V) (k : List Char) (v : V)
    (m : List (List Char × V)) (hnd : (m.map Prod.fst).Nodup) (h : e ∈ aset k v m) :
    e = (k, v) ∨ (e ∈ m ∧ e.1 ≠ k) := by
  induction m with
  | nil =>
    simp [aset] at h
    exact Or.inl h
  | cons e2 rest ih =>
    obtain ⟨k2, v2⟩ := e2
    rw [List.map_cons, List.nodup_cons] at hnd
    obtain ⟨hk2, hrest⟩ := hnd
    by_cases hk : k2 = k
    · subst hk
      rw [show aset k2 v ((k2, v2) :: rest) = (k2, v) :: rest from by simp [aset]] at h
      rcases List.mem_cons.1 h with h | h
      · exact Or.inl h
      · right
        refine ⟨List.mem_cons_of_mem _ h, ?_⟩
        intro hek
        apply hk2
        show (k2, v2).1 ∈ List.map Prod.fst rest
        rw [show ((k2, v2) : List Char × V).1 = k2 from rfl, ← hek]
        exact List.mem_map_of_mem Prod.fst h
    · rw [show aset k v ((k2, v2) :: rest) = (k2, v2) :: aset k v rest from
        by simp [aset, hk]] at h
      rcases List.mem_cons.1 h with h | h
      · subst h
        right
        exact ⟨List.mem_cons_self _ _, hk⟩
      · rcases ih hrest h with h | h
        · exact Or.inl h
        · exact Or.inr ⟨List.mem_cons_of_mem _ h.1, h.2⟩

theorem alookup_aset_isSome {V : Type} (a k : List Char) (v : V) (m : List (List Char × V))
    (h : (alookup a m).isSome = true) : (alookup a (aset k v m)).isSome = true := by
  by_cases hk : a = k
  · subst hk
    rw [alookup_aset_self]
    rfl
  · rw [alookup_aset_ne _ _ _ _ hk]
    exact h

theorem inv_alloc (stt : St) (addr : List Char) (val sz : PyVal) (meth : Method)
    (h1 : stt.status = .BACKTRACE_START)
    (hnd : (stt.mallocs.map Prod.fst).Nodup)
    (hstrong : ∀ e ∈ stt.mallocs, startsStar e.2 = false →
      (alookup e.1 stt.membt).isSome = true) :
    Inv { stt with method := some meth, allocSize := sz,
                   mallocs := aset addr val stt.mallocs, address := some addr } := by
  constructor
  · show ((aset addr val stt.mallocs).map Prod.fst).Nodup
    exact aset_keys_nodup _ _ _ hnd
  · intro e he hstar
    rcases mem_aset_nodup e addr val stt.mallocs hnd he with rfl | ⟨hm, hne⟩
    · right
      refine ⟨Or.inl ?_, rfl⟩
      show stt.status = .BACKTRACE_START
      exact h1
    · left
      show (alookup e.1 stt.membt).isSome = true
      exact hstrong e hm hstar

theorem inv_free (stt : St) (a : List Char) (sz : PyVal)
    (hnd : (stt.mallocs.map Prod.fst).Nodup)
    (hstrong : ∀ e ∈ stt.mallocs, startsStar e.2 = false →
      (alookup e.1 stt.membt).isSome = true) :
    Inv { stt with method := some Method.free, allocSize := sz,
                   mallocs := aset a (PyVal.pstr sentinelFreed) stt.mallocs,
                   membt := aerase a stt.membt } := by
  constructor
  · show ((aset a (PyVal.pstr sentinelFreed) stt.mallocs).map Prod.fst).Nodup
    exact aset_keys_nodup _ _ _ hnd
  · intro e he hstar
    rcases mem_aset_nodup e a (PyVal.pstr sentinelFreed) stt.mallocs hnd he with rfl | ⟨hm, hne⟩
    · have hsf : startsStar (PyVal.pstr sentinelFreed) = true := rfl
      exact Bool.noConfusion (hsf.symm.trans hstar)
    · left
      show (alookup e.1 (aerase a stt.membt)).isSome = true
      rw [alookup_aerase_ne _ _ _ hne]
      exact hstrong e hm hstar

theorem inv_realloc (stt : St) (old nw ds : List Char)
    (h1 : stt.status = .BACKTRACE_START)
    (hnd : (stt.mallocs.map Prod.fst).Nodup)
    (hstrong : ∀ e ∈ stt.mallocs, startsStar e.2 = false →
      (alookup e.1 stt.membt).isSome = true) :
    Inv { stt with
          method := some Method.realloc, allocSize := PyVal.pstr ds,
          mallocs := (if old = nw then aset nw (PyVal.pstr ds) stt.mallocs
            else aset old (PyVal.pstr sentinelRealloced)
              (aset nw (PyVal.pstr ds) stt.mallocs)),
          membt := aerase old stt.membt, address := some nw } := by
  by_cases heq : old = nw
  · constructor
    · show ((if old = nw then aset nw (PyVal.pstr ds) stt.mallocs
        else aset old (PyVal.pstr sentinelRealloced)
          (aset nw (PyVal.pstr ds) stt.mallocs)).map Prod.fst).Nodup
      rw [if_pos heq]
      exact aset_keys_nodup _ _ _ hnd
    · intro e he hstar
      have he2 : e ∈ (if old = nw then aset nw (PyVal.pstr ds) stt.mallocs
          else aset old (PyVal.pstr sentinelRealloced)
            (aset nw (PyVal.pstr ds) stt.mallocs)) := he
      rw [if_pos heq] at he2
      rcases mem_aset_nodup e nw (PyVal.pstr ds) stt.mallocs hnd he2 with rfl | ⟨hm, hne⟩
      · right
        refine ⟨Or.inl ?_, rfl⟩
        show stt.status = .BACKTRACE_START
        exact h1
      · left
        show (alookup e.1 (aerase old stt.membt)).isSome = true
        have hne2 : e.1 ≠ old := by
          intro hh
          exact hne (hh.trans heq)
        rw [alookup_aerase_ne _ _ _ hne2]
        exact hstrong e hm hstar
  · constructor
    · show ((if old = nw then aset nw (PyVal.pstr ds) stt.mallocs
        else aset old (PyVal.pstr sentinelRealloced)
          (aset nw (PyVal.pstr ds) stt.mallocs)).map Prod.fst).Nodup
      rw [if_neg heq]
      exact aset_keys_nodup _ _ _ (aset_keys_nodup _ _ _ hnd)
    · intro e he hstar
      have he2 : e ∈ (if old = nw then aset nw (PyVal.pstr ds) stt.mallocs
          else aset old (PyVal.pstr sentinelRealloced)
            (aset nw (PyVal.pstr ds) stt.mallocs)) := he
      rw [if_neg heq] at he2
      rcases mem_aset_nodup e old (PyVal.pstr sentinelRealloced) _
          (aset_keys_nodup _ _ _ hnd) he2 with rfl | ⟨hm, hne⟩
      · have hsr : startsStar (PyVal.pstr sentinelRealloced) = true := rfl
        exact Bool.noConfusion (hsr.symm.trans hstar)
      · rcases mem_aset_nodup e nw (PyVal.pstr ds) stt.mallocs hnd hm with rfl | ⟨hm2, hne2⟩
        · right
          refine ⟨Or.inl ?_, rfl⟩
          show stt.status = .BACKTRACE_START
          exact h1
        · left
          show (alookup e.1 (aerase old stt.membt)).isSome = true
          rw [alookup_aerase_ne _ _ _ hne]
          exact hstrong e hm2 hstar

theorem handleMethod_inv (stt : St) (l : List Char) (st2 : St)
    (h1 : stt.status = .BACKTRACE_START)
    (hnd : (stt.mallocs.map Prod.fst).Nodup)
    (hstrong : ∀ e ∈ stt.mallocs, startsStar e.2 = false →
      (alookup e.1 stt.membt).isSome = true)
    (hstep : handleMethod stt l = .ok st2) : Inv st2 := by
  unfold handleMethod at hstep
  split at hstep
  · injection hstep with h2
    subst h2
    exact inv_alloc stt _ _ _ _ h1 hnd hstrong
  · split at hstep
    · injection hstep with h2
      subst h2
      exact inv_free stt _ _ hnd hstrong
    · split at hstep
      · injection hstep with h2
        subst h2
        exact inv_realloc stt _ _ _ h1 hnd hstrong
      · split at hstep
        · split at hstep
          · injection hstep with h2
            subst h2
            exact inv_alloc stt _ _ _ _ h1 hnd hstrong
          · exact Except.noConfusion hstep
          · exact Except.noConfusion hstep
        · split at hstep
          · split at hstep
            · injection hstep with h2
              subst h2
              exact inv_alloc stt _ _ _ _ h1 hnd hstrong
            · exact Except.noConfusion hstep
          · split at hstep
            · split at hstep
              · injection hstep with h2
                subst h2
                exact inv_alloc stt _ _ _ _ h1 hnd hstrong
              · exact Except.noConfusion hstep
            · split at hstep
              · split at hstep
                · injection hstep with h2
                  subst h2
                  exact inv_alloc stt _ _ _ _ h1 hnd hstrong
                · exact Except.noConfusion hstep
              · exact Except.noConfusion hstep

theorem finalize_inv (st1 st2 : St) (hinv1 : Inv st1)
    (hstep : finalizeBlock st1 = .ok st2) : Inv st2 := by
  unfold finalizeBlock at hstep
  split at hstep
  · exact Except.noConfusion hstep
  · injection hstep with h2
    subst h2
    obtain ⟨hnd, hlb⟩ := hinv1
    constructor
    · exact hnd
    · intro e he hstar
      left
      show (alookup e.1 (match st1.address with
        | some a => aset a st1.currentBackTrace st1.membt
        | none => st1.membt)).isSome = true
      rcases hlb e he hstar with hs | ⟨_, haddr⟩
      · cases ha : st1.address with
        | some a =>
          show (alookup e.1 (aset a st1.currentBackTrace st1.membt)).isSome = true
          exact alookup_aset_isSome _ _ _ _ hs
        | none => exact hs
      · rw [haddr]
        show (alookup e.1 (aset e.1 st1.currentBackTrace st1.membt)).isSome = true
        rw [alookup_aset_self]
        rfl

theorem stepLine_inv (resolve : List Char → List Char) (st st2 : St) (raw : List Char)
    (hstep : stepLine resolve st raw = .ok st2) (hinv : Inv st) : Inv st2 := by
  unfold stepLine at hstep
  have hinv1 : Inv (if st.status = .READY then threadReset st else st) := by
    by_cases h : st.status = .READY
    · rw [if_pos h]
      obtain ⟨hnd, hlb⟩ := hinv
      refine ⟨hnd, ?_⟩
      intro e he hstar
      rcases hlb e he hstar with hs | ⟨hor, _⟩
      · left
        exact hs
      · rcases hor with h2 | h2 <;> (rw [h] at h2; exact ParsingStatus.noConfusion h2)
    · rw [if_neg h]
      exact hinv
  generalize hst1 : (if st.status = .READY then threadReset st else st) = st1 at hstep hinv1
  unfold stepBody at hstep
  split at hstep
  · injection hstep with h2
    subst h2
    split
    · exact hinv1
    · exact hinv1
  · split at hstep
    · rename_i heq
      split at hstep
      · split at hstep
        · exact Except.noConfusion hstep
        · refine handleMethod_inv _ _ _ ?_ ?_ ?_ hstep
          · rfl
          · exact hinv1.1
          · intro e he hstar
            rcases hinv1.2 e he hstar with hs | ⟨hor, _⟩
            · exact hs
            · rcases hor with h2 | h2 <;> (rw [heq] at h2; exact ParsingStatus.noConfusion h2)
      · exact Except.noConfusion hstep
    · split at hstep
      · injection hstep with h2
        subst h2
        obtain ⟨hnd, hlb⟩ := hinv1
        refine ⟨hnd, ?_⟩
        intro e he hstar
        rcases hlb e he hstar with hs | ⟨_, haddr⟩
        · left
          exact hs
        · right
          exact ⟨Or.inr rfl, haddr⟩
      · exact Except.noConfusion hstep
    · split at hstep
      · exact finalize_inv st1 st2 hinv1 hstep
      · split at hstep
        · exact Except.noConfusion hstep
        · split at hstep
          · injection hstep with h2
            subst h2
            exact hinv1
          · injection hstep with h2
            subst h2
            obtain ⟨hnd, hlb⟩ := hinv1
            refine ⟨hnd, ?_⟩
            intro e he hstar
            rcases hlb e he hstar with hs | ⟨hor, haddr⟩
            · left
              exact hs
            · right
              exact ⟨hor, haddr⟩
    · injection hstep with h2
      subst h2
      exact hinv1

theorem parseAux_inv (resolve : List Char → List Char) (lines : List (List Char))
    (st st2 : St) (hrun : parseAux resolve st lines = (st2, none)) (hinv : Inv st) :
    Inv st2 := by
  induction lines generalizing st with
  | nil =>
    injection hrun with h1 h2
    subst h1
    exact hinv
  | cons l ls ih =>
    have hrun2 : (match stepLine resolve st l with
        | .ok st3 => parseAux resolve st3 ls
        | .error e => (st, some e)) = (st2, none) := hrun
    cases hstep : stepLine resolve st l with
    | ok st3 =>
      rw [hstep] at hrun2
      exact ih st3 hrun2 (stepLine_inv resolve st st3 l hstep hinv)
    | error e =>
      rw [hstep] at hrun2
      injection hrun2 with h1 h2
      exact Option.noConfusion h2

theorem inv_initSt : Inv initSt := by
  constructor
  · simp [initSt]
  · intro e he hstar
    simp [initSt] at he

theorem emitMem_cons_pstr (k s : List Char) (rest : List (List Char × PyVal))
    (mb : List (List Char × List Char)) :
    emitMem ((k, PyVal.pstr s) :: rest) mb =
      (if printableStr s then
        match alookup k mb with
        | none => ([OutItem.line addrSizeHeader, OutItem.line (k ++ ' ' :: s)],
            some Err.keyError)
        | some bt =>
          (OutItem.line addrSizeHeader :: OutItem.line (k ++ ' ' :: s) ::
            OutItem.line ("backtrace: ".data ++ bt) :: (emitMem rest mb).1,
           (emitMem rest mb).2)
      else emitMem rest mb) := rfl

theorem emitMem_no_keyError (m : List (List Char × PyVal)) (mb : List (List Char × List Char))
    (h : ∀ e ∈ m, startsStar e.2 = false → (alookup e.1 mb).isSome = true) :
    (emitMem m mb).2 ≠ some Err.keyError := by
  induction m with
  | nil => simp [emitMem]
  | cons e rest ih =>
    obtain ⟨k, v⟩ := e
    have hrest : ∀ e2 ∈ rest, startsStar e2.2 = false → (alookup e2.1 mb).isSome = true := by
      intro e2 he2 hs
      exact h e2 (List.mem_cons_of_mem _ he2) hs
    cases v with
    | pint n =>
      show (emitMem ((k, PyVal.pint n) :: rest) mb).2 ≠ some Err.keyError
      rw [show (emitMem ((k, PyVal.pint n) :: rest) mb).2 = some Err.typeError from rfl]
      simp
    | pstr s =>
      cases hp : printableStr s with
      | false =>
        have e1 : emitMem ((k, PyVal.pstr s) :: rest) mb = emitMem rest mb := by
          rw [emitMem_cons_pstr, hp]
          simp
        rw [e1]
        exact ih hrest
      | true =>
        have hstar : startsStar (PyVal.pstr s) = false := by
          cases s with
          | nil => rfl
          | cons c cs =>
            have hc : (c != '*') = true := hp
            show (c == '*') = false
            cases hcc : c == '*' with
            | false => rfl
            | true =>
              rw [show (c != '*') = !(c == '*') from rfl, hcc] at hc
              exact Bool.noConfusion hc
        have hsome := h (k, PyVal.pstr s) (List.mem_cons_self _ _) hstar
        rw [Option.isSome_iff_exists] at hsome
        obtain ⟨bt, hbt⟩ := hsome
        have e1 : (emitMem ((k, PyVal.pstr s) :: rest) mb).2 = (emitMem rest mb).2 := by
          rw [emitMem_cons_pstr, hp, hbt]
          rfl
        rw [e1]
        exact ih hrest

theorem stepLine_frame (resolve : List Char → List Char) (st : St) (F : List Char)
    (bt : BT) (h : st.status = .BACKTRACE)
    (hr : rstrip F = F) (hs : skippable F = false)
    (hF : parseBT F = some bt) (hm : btMatch bt backtrace_filter_out = false) :
    stepLine resolve st F = .ok { st with currentBackTrace :=
      (st.currentBackTrace ++
        (if 0 < st.currentBackTrace.length then ['\n'] else []) ++
        renderBT resolve bt) } := by
  have hne : ¬(F = "]".data) := by
    intro hh
    rw [hh] at hF
    exact Option.noConfusion ((show parseBT "]".data = none from rfl).symm.trans hF)
  have hnotready : ¬ st.status = .READY := by
    rw [h]
    intro hh
    exact ParsingStatus.noConfusion hh
  unfold stepLine stepBody
  rw [hr, if_neg hnotready, hs, h, if_neg hne, hF]
  simp only [hm]
  simp

theorem map_fst_aset_two {V : Type} (k1 k2 : List Char) (v1 v2 : V) :
    ((aset k2 v2 (aset k1 v1 ([] : List (List Char × V)))).map Prod.fst) =
      if k1 = k2 then [k1] else [k1, k2] := by
  by_cases h : k1 = k2
  · subst h
    simp [aset]
  · simp [aset, h]

theorem parseAux_cons (resolve : List Char → List Char) (st : St) (l : List Char)
    (ls : List (List Char)) :
    parseAux resolve st (l :: ls) =
      match stepLine resolve st l with
      | .ok st3 => parseAux resolve st3 ls
      | .error e => (st, some e) := rfl

theorem parseAux_malloc_frame_event (resolve : List Char → List Char) (st : St)
    (tid : Char) (F : List Char) (bt : BT)
    (h : st.status = .READY) (htid : tid.isDigit = true)
    (hr : rstrip F = F) (hs : skippable F = false)
    (hF : parseBT F = some bt) (hm : btMatch bt backtrace_filter_out = false) :
    parseAux resolve st (mkEv tid F) =
      ({ status := .READY, threadId := some [tid], method := some Method.malloc,
         allocSize := PyVal.pstr ['8'], address := some "0x1".data,
         currentBackTrace := evKey resolve tid bt,
         mallocs := aset "0x1".data (PyVal.pstr ['8']) st.mallocs,
         membt := aset "0x1".data (evKey resolve tid bt) st.membt,
         backtraces := aset (evKey resolve tid bt)
           (bumpStats Method.malloc (PyVal.pstr ['8'])
             ((alookup (evKey resolve tid bt) st.backtraces).getD emptyStats))
           st.backtraces,
         comments := st.comments }, none) := by
  have hfdr : firstDigitRun ('*' :: ' ' :: tid :: ' ' :: "malloc(8) = 0x1".data) =
      some [tid] := by
    unfold firstDigitRun
    simp [List.dropWhile_cons, List.takeWhile_cons, htid]
  have estep1 : stepLine resolve st ('*' :: ' ' :: tid :: ' ' :: "malloc(8) = 0x1".data) =
      .ok { status := .BACKTRACE_START, threadId := some [tid],
            method := some Method.malloc, allocSize := PyVal.pstr ['8'],
            address := some "0x1".data,
            currentBackTrace := "Thread ".data ++ [tid],
            mallocs := aset "0x1".data (PyVal.pstr ['8']) st.mallocs,
            membt := st.membt, backtraces := st.backtraces,
            comments := st.comments } := by
    unfold stepLine stepBody
    rw [show rstrip ('*' :: ' ' :: tid :: ' ' :: "malloc(8) = 0x1".data) =
      '*' :: ' ' :: tid :: ' ' :: "malloc(8) = 0x1".data from rfl, h, hfdr]
    rfl
  have estep3 : stepLine resolve
      { status := ParsingStatus.BACKTRACE, threadId := some [tid],
        method := some Method.malloc, allocSize := PyVal.pstr ['8'],
        address := some "0x1".data,
        currentBackTrace := "Thread ".data ++ [tid],
        mallocs := aset "0x1".data (PyVal.pstr ['8']) st.mallocs,
        membt := st.membt, backtraces := st.backtraces,
        comments := st.comments } F =
      .ok { status := ParsingStatus.BACKTRACE, threadId := some [tid],
            method := some Method.malloc, allocSize := PyVal.pstr ['8'],
            address := some "0x1".data,
            currentBackTrace := evKey resolve tid bt,
            mallocs := aset "0x1".data (PyVal.pstr ['8']) st.mallocs,
            membt := st.membt, backtraces := st.backtraces,
            comments := st.comments } := by
    rw [stepLine_frame resolve _ F bt rfl hr hs hF hm]
    rfl
  have c1 : parseAux resolve st (mkEv tid F) =
      parseAux resolve
        { status := .BACKTRACE_START, threadId := some [tid],
          method := some Method.malloc, allocSize := PyVal.pstr ['8'],
          address := some "0x1".data,
          currentBackTrace := "Thread ".data ++ [tid],
          mallocs := aset "0x1".data (PyVal.pstr ['8']) st.mallocs,
          membt := st.membt, backtraces := st.backtraces,
          comments := st.comments } ["[".data, F, "]".data] := by
    rw [show mkEv tid F =
      ('*' :: ' ' :: tid :: ' ' :: "malloc(8) = 0x1".data) ::
        ["[".data, F, "]".data] from rfl]
    rw [parseAux_cons, estep1]
  have c2 : parseAux resolve
        { status := ParsingStatus.BACKTRACE_START, threadId := some [tid],
          method := some Method.malloc, allocSize := PyVal.pstr ['8'],
          address := some "0x1".data,
          currentBackTrace := "Thread ".data ++ [tid],
          mallocs := aset "0x1".data (PyVal.pstr ['8']) st.mallocs,
          membt := st.membt, backtraces := st.backtraces,
          comments := st.comments } ["[".data, F, "]".data] =
      parseAux resolve
        { status := ParsingStatus.BACKTRACE, threadId := some [tid],
          method := some Method.malloc, allocSize := PyVal.pstr ['8'],
          address := some "0x1".data,
          currentBackTrace := "Thread ".data ++ [tid],
          mallocs := aset "0x1".data (PyVal.pstr ['8']) st.mallocs,
          membt := st.membt, backtraces := st.backtraces,
          comments := st.comments } [F, "]".data] := by
    rw [parseAux_cons]
    rfl
  have c3 : parseAux resolve
        { status := ParsingStatus.BACKTRACE, threadId := some [tid],
          method := some Method.malloc, allocSize := PyVal.pstr ['8'],
          address := some "0x1".data,
          currentBackTrace := "Thread ".data ++ [tid],
          mallocs := aset "0x1".data (PyVal.pstr ['8']) st.mallocs,
          membt := st.membt, backtraces := st.backtraces,
          comments := st.comments } [F, "]".data] =
      parseAux resolve
        { status := ParsingStatus.BACKTRACE, threadId := some [tid],
          method := some Method.malloc, allocSize := PyVal.pstr ['8'],
          address := some "0x1".data,
          currentBackTrace := evKey resolve tid bt,
          mallocs := aset "0x1".data (PyVal.pstr ['8']) st.mallocs,
          membt := st.membt, backtraces := st.backtraces,
          comments := st.comments } ["]".data] := by
    rw [parseAux_cons, estep3]
  rw [c1, c2, c3, parseAux_cons]
  rfl

/- ## Claim theorems: concrete counterexamples -/

/-- C1: the spec claims every leaked allocation address (from any of the
seven allocators, calloc included) is printed in "Memory not released"
with its last recorded size.  The code stores calloc sizes as Python
ints, and the report loop evaluates `len(value)` on them, raising
TypeError: on a trace whose only event is a leaked `calloc(2, 8) = 0x10`
the parse succeeds and the ledger holds the entry, but the section loop
aborts with the TypeError before printing the address, and the process
exits with code 1. -/
theorem c1_calloc_leak_crashes :
    (parseTrace (fun x => x) c1Trace).2 = none ∧
    (parseTrace (fun x => x) c1Trace).1.mallocs = [("0x10".data, PyVal.pint 16)] ∧
    emitMem (parseTrace (fun x => x) c1Trace).1.mallocs (parseTrace (fun x => x) c1Trace).1.membt
      = ([], some Err.typeError) ∧
    (runProgram (fun x => x) c1Trace).2 = 1 := by
  refine ⟨by decide, by decide, by decide, by decide⟩

/-- C2 counterexample: two backtrace blocks with byte-identical frame
lines (hence identical filtered, resolved renderings) recorded by
threads 1 and 2 end up in two distinct aggregation entries of count 1
each, because the aggregation key is prefixed with `Thread {id}`; the
claim as stated says they must share one entry. -/
theorem c2_counterexample :
    (parseTrace (fun x => x) c2Trace).2 = none ∧
    (parseTrace (fun x => x) c2Trace).1.backtraces.map (fun e => (e.1, e.2.count)) =
      [("Thread 1\na.so(f+1)[0x2]".data, 1), ("Thread 2\na.so(f+1)[0x2]".data, 1)] := by
  refine ⟨by decide, by decide⟩

/-- C3 counterexample: a raw frame line whose PATH component contains
`(` and `)` (`a(b)` followed by the genuine `(c+1)[2]` suffix) is split
on every bracket, yielding 7 fields instead of 5, so
`BacktraceLine.__init__` fails its assertion — modelled as `parseBT`
returning `none` — instead of parsing by anchoring on the final groups. -/
theorem c3_counterexample : parseBT "a(b)(c+1)[2]".data = none := by decide

/-- C4 counterexample: after `malloc(32) = 0x10` whose block has frame
`a.so(f+1)[0x2]` (key `Thread 1\na.so(f+1)[0x2]`), the same-address
`realloc(0x10, 64) = 0x10` (an empty block, key `Thread 1`) updates the
size to 64 and keeps `0x10` live, but the LiveAddressBacktrace entry is
not preserved: the realloc branch deletes it and finalization rebinds it
to the realloc event's own key. -/
theorem c4_counterexample :
    (parseTrace (fun x => x) c4Trace).2 = none ∧
    alookup "0x10".data (parseTrace (fun x => x) c4Trace).1.mallocs = some (.pstr "64".data) ∧
    alookup "0x10".data (parseTrace (fun x => x) c4Trace).1.membt = some "Thread 1".data ∧
    alookup "0x10".data (parseTrace (fun x => x) c4Trace).1.membt ≠
      some "Thread 1\na.so(f+1)[0x2]".data := by
  refine ⟨by decide, by decide, by decide, by decide⟩

/-- C5 counterexample: freeing an address absent from the ledger records
the size string `???`, not `unknown` as the claim states: the sole
event's free-size list is `['???']`. -/
theorem c5_counterexample :
    (parseTrace (fun x => x) c5Trace).2 = none ∧
    (parseTrace (fun x => x) c5Trace).1.backtraces.map (fun e => (e.1, e.2.free)) =
      [("Thread 1".data, [PyVal.pstr "???".data])] ∧
    (parseTrace (fun x => x) c5Trace).1.backtraces.map (fun e => (e.1, e.2.free)) ≠
      [("Thread 1".data, [PyVal.pstr "unknown".data])] := by
  refine ⟨by decide, by decide, by decide⟩

/-- C6 counterexample: `malloc(5) = (nil)` does create a ledger entry
keyed by the null marker, and the entry is printed in the "Memory not
released" section (`(nil) 5`), contradicting the claim that failed
allocations create no entry and contribute nothing to the section. -/
theorem c6_counterexample :
    alookup "(nil)".data (parseTrace (fun x => x) c6Trace).1.mallocs = some (.pstr "5".data) ∧
    OutItem.line "(nil) 5".data ∈ (runProgram (fun x => x) c6Trace).1 ∧
    (runProgram (fun x => x) c6Trace).2 = 0 := by
  refine ⟨by decide, by decide, by decide⟩

/-- C10 counterexample: after the first `free((nil))` the ledger maps
`(nil)` to the ALREADY_FREED sentinel, yet the second `free((nil))`
records the size `null` (the null-marker test precedes the ledger
lookup), not the sentinel string the claim requires: both recorded free
sizes are `null` and the sentinel never reaches the size list. -/
theorem c10_counterexample :
    alookup "(nil)".data (parseAux (fun x => x) initSt (c10Trace.take 3)).1.mallocs =
      some (.pstr sentinelFreed) ∧
    (parseTrace (fun x => x) c10Trace).1.backtraces.map (fun e => (e.1, e.2.free)) =
      [("Thread 1".data, [PyVal.pstr "null".data, PyVal.pstr "null".data])] := by
  refine ⟨by decide, by decide⟩

/-- C4 (amended): after an allocation of `A`, a same-address
`realloc(A, N) = A` event updates the Ledger entry for `A` to the new
size `N` and `A` still qualifies for the "Memory not released" section
(its value is a non-empty digit string not starting with `*`), but the
LiveAddressBacktrace association of `A` is NOT preserved: the realloc
branch deletes it and block finalization rebinds `A` to the realloc
event's own backtrace key (`Thread 1` here), whatever it was bound to
before. -/
theorem c4_realloc_same_address (resolve : List Char → List Char) (st : St) (A ds : List Char)
    (h : st.status = .READY) (hA : A ≠ []) (hAc : ∀ c ∈ A, isWS c = false ∧ c ≠ ',')
    (hds : ∀ c ∈ ds, c.isDigit) (hds0 : ds ≠ []) :
    (parseAux resolve st
        ["* 1 realloc(".data ++ A ++ ", ".data ++ ds ++ ") = ".data ++ A,
         "[".data, "]".data]).2 = none ∧
    alookup A (parseAux resolve st
        ["* 1 realloc(".data ++ A ++ ", ".data ++ ds ++ ") = ".data ++ A,
         "[".data, "]".data]).1.mallocs = some (PyVal.pstr ds) ∧
    printableStr ds = true ∧
    alookup A (parseAux resolve st
        ["* 1 realloc(".data ++ A ++ ", ".data ++ ds ++ ") = ".data ++ A,
         "[".data, "]".data]).1.membt = some "Thread 1".data ∧
    (parseAux resolve st
        ["* 1 realloc(".data ++ A ++ ", ".data ++ ds ++ ") = ".data ++ A,
         "[".data, "]".data]).1.currentBackTrace = "Thread 1".data := by
  have E := parseAux_realloc_same_event resolve st A ds h hA hAc hds
  rw [E]
  exact ⟨rfl, alookup_aset_self _ _ _, printableStr_digits ds hds0 hds,
    alookup_aset_self _ _ _, rfl⟩

/-- Witness for C4 at a concrete input: `malloc`-free prior state,
`realloc(0xa0, 64) = 0xa0`; afterwards the live-backtrace table binds
`0xa0` to the realloc event's own key `Thread 1`. -/
theorem c4_witness :
    alookup "0xa0".data (parseAux (fun x => x) initSt
        ["* 1 realloc(".data ++ "0xa0".data ++ ", ".data ++ "64".data ++ ") = ".data ++ "0xa0".data,
         "[".data, "]".data]).1.membt = some "Thread 1".data :=
  (c4_realloc_same_address (fun x => x) initSt "0xa0".data "64".data rfl (by decide) (by decide)
    (by decide) (by decide)).2.2.2.1

/-- C5 (amended): a `free(ADDR)` event records as its size the string
`null` when `ADDR` is the null marker `(nil)`, the Ledger's current
value when `ADDR` is present, and the string `???` (not `unknown`, as
the spec claims) when `ADDR` is absent; afterwards the Ledger maps
`ADDR` to the ALREADY_FREED sentinel and `ADDR` is removed from the
LiveAddressBacktrace table. -/
theorem c5_free_size_semantics (resolve : List Char → List Char) (st : St) (A : List Char)
    (h : st.status = .READY) :
    ((A = "(nil)".data →
       (parseAux resolve st ["* 1 free(".data ++ A ++ ")".data, "[".data,
         "]".data]).1.allocSize = PyVal.pstr "null".data) ∧
     (∀ v, A ≠ "(nil)".data → alookup A st.mallocs = some v →
       (parseAux resolve st ["* 1 free(".data ++ A ++ ")".data, "[".data,
         "]".data]).1.allocSize = v) ∧
     (A ≠ "(nil)".data → alookup A st.mallocs = none →
       (parseAux resolve st ["* 1 free(".data ++ A ++ ")".data, "[".data,
         "]".data]).1.allocSize = PyVal.pstr "???".data)) ∧
    alookup A (parseAux resolve st ["* 1 free(".data ++ A ++ ")".data, "[".data,
      "]".data]).1.mallocs = some (PyVal.pstr sentinelFreed) ∧
    alookup A (parseAux resolve st ["* 1 free(".data ++ A ++ ")".data, "[".data,
      "]".data]).1.membt = none ∧
    (parseAux resolve st ["* 1 free(".data ++ A ++ ")".data, "[".data, "]".data]).2 = none := by
  have E := parseAux_free_event resolve st A h
  rw [E]
  refine ⟨⟨?_, ?_, ?_⟩, ?_, ?_, rfl⟩
  · intro hnil
    show freeSize st.mallocs A = PyVal.pstr "null".data
    unfold freeSize
    rw [if_pos hnil]
  · intro v hne hv
    show freeSize st.mallocs A = v
    unfold freeSize
    rw [if_neg hne, hv]
  · intro hne hv
    show freeSize st.mallocs A = PyVal.pstr "???".data
    unfold freeSize
    rw [if_neg hne, hv]
  · exact alookup_aset_self _ _ _
  · exact alookup_aerase_self _ _

/-- Witness for C5 at a concrete input: freeing the unseen `0x99` leaves
the ALREADY_FREED sentinel in the ledger. -/
theorem c5_witness :
    alookup "0x99".data (parseAux (fun x => x) initSt
        ["* 1 free(".data ++ "0x99".data ++ ")".data, "[".data, "]".data]).1.mallocs
      = some (PyVal.pstr sentinelFreed) :=
  (c5_free_size_semantics (fun x => x) initSt "0x99".data rfl).2.1

/-- C6 (amended): an allocation whose result is the null marker DOES
create a Ledger entry: `malloc(N) = (nil)` stores `N` under the key
`(nil)`, the value qualifies for the "Memory not released" section
(non-empty digit string not starting with `*`), and the live-backtrace
table binds `(nil)` to the event's key, so the entry is printed. -/
theorem c6_nil_alloc_creates_entry (resolve : List Char → List Char) (st : St) (ds : List Char)
    (h : st.status = .READY) (hds : ∀ c ∈ ds, c.isDigit) (hds0 : ds ≠ []) :
    alookup "(nil)".data (parseAux resolve st
        ["* 1 malloc(".data ++ ds ++ ") = ".data ++ "(nil)".data, "[".data,
         "]".data]).1.mallocs = some (PyVal.pstr ds) ∧
    printableStr ds = true ∧
    alookup "(nil)".data (parseAux resolve st
        ["* 1 malloc(".data ++ ds ++ ") = ".data ++ "(nil)".data, "[".data,
         "]".data]).1.membt = some "Thread 1".data ∧
    (parseAux resolve st
        ["* 1 malloc(".data ++ ds ++ ") = ".data ++ "(nil)".data, "[".data,
         "]".data]).2 = none := by
  have E := parseAux_malloc_event resolve st ds "(nil)".data h (by decide) (by decide) hds
  rw [E]
  exact ⟨alookup_aset_self _ _ _, printableStr_digits ds hds0 hds,
    alookup_aset_self _ _ _, rfl⟩

/-- Witness for C6 at a concrete input: `malloc(7) = (nil)` records the
ledger entry `(nil) ↦ 7`. -/
theorem c6_witness :
    alookup "(nil)".data (parseAux (fun x => x) initSt
        ["* 1 malloc(".data ++ "7".data ++ ") = ".data ++ "(nil)".data, "[".data,
         "]".data]).1.mallocs = some (PyVal.pstr "7".data) :=
  (c6_nil_alloc_creates_entry (fun x => x) initSt "7".data rfl (by decide) (by decide)).1

/-- C3 (corrected statement): a raw frame line built as
`PATH(SYMBOL+OFFSET)[ADDRESS]` whose PATH contains a `(` or `)`
character does NOT parse: `BacktraceLine.__init__` splits on every
bracket character, so the line yields at least 6 fields and the
`len(fields) == 5` assertion fails fatally, rather than the parser
anchoring on the final `(...+...)[...]` groups. -/
theorem c3_embedded_paren_fails (path sym off addr : List Char)
    (h : '(' ∈ path ∨ ')' ∈ path) :
    parseBT (path ++ "(".data ++ sym ++ "+".data ++ off ++ ")[".data ++ addr ++ "]".data)
      = none := by
  apply parseBT_none_of_fields
  rw [splitP_length]
  have h1 : 0 < path.countP isDelim := by
    rw [List.countP_pos_iff]
    rcases h with h | h
    · exact ⟨'(', h, by decide⟩
    · exact ⟨')', h, by decide⟩
  have h2 : (path ++ "(".data ++ sym ++ "+".data ++ off ++ ")[".data ++ addr ++
      "]".data).countP isDelim =
      path.countP isDelim + sym.countP isDelim + off.countP isDelim +
        addr.countP isDelim + 4 := by
    simp only [List.countP_append]
    have e1 : List.countP isDelim ['('] = 1 := rfl
    have e2 : List.countP isDelim ['+'] = 0 := rfl
    have e3 : List.countP isDelim [')', '['] = 2 := rfl
    have e4 : List.countP isDelim [']'] = 1 := rfl
    omega
  omega

/-- Witness for C3 at a concrete input: the path `a(b` makes the frame
line `a(b(f+1)[2]` unparsable. -/
theorem c3_witness :
    parseBT ("a(b".data ++ "(".data ++ "f".data ++ "+".data ++ "1".data ++ ")[".data ++
      "2".data ++ "]".data) = none :=
  c3_embedded_paren_fails "a(b".data "f".data "1".data "2".data (Or.inl (by decide))

/-- C7: in the "Backtraces" report section the aggregated keys are
iterated in the order given by `sortByCount`, the model of
`sorted(backtraces.items(), key=lambda item: item[1]['count'])`: the
result is ascending in call count, and any two entries with equal
counts keep their relative first-seen (insertion) order — if `a`
precedes `b` in the dict and their counts are equal, `a` still precedes
`b` after sorting. -/
theorem c7_sort_ascending_stable (st : St) :
    ((sortByCount st.backtraces).Pairwise (fun a b => a.2.count ≤ b.2.count)) ∧
    (∀ a b : List Char × Stats, a.2.count = b.2.count →
      [a, b].Sublist st.backtraces → [a, b].Sublist (sortByCount st.backtraces)) := by
  constructor
  · exact sortByCount_sorted _
  · intro a b hcount hsub
    have hfa : [a, b].filter (fun e => e.2.count == a.2.count) = [a, b] := by
      simp [List.filter, hcount]
    have h1 : [a, b].Sublist (st.backtraces.filter (fun e => e.2.count == a.2.count)) := by
      rw [← hfa]
      exact hsub.filter _
    rw [← sortByCount_filter] at h1
    exact h1.trans (List.filter_sublist _)

/-- Witness for C7 at a concrete input: three entries with counts 2, 1,
1; the two tied entries keep their relative order below the sort. -/
theorem c7_witness :
    [(("k2".data : List Char), { emptyStats with count := 1 }),
     ("k3".data, { emptyStats with count := 1 })].Sublist
      (sortByCount [(("k1".data : List Char), { emptyStats with count := 2 }),
        ("k2".data, { emptyStats with count := 1 }),
        ("k3".data, { emptyStats with count := 1 })]) :=
  (c7_sort_ascending_stable
    { initSt with backtraces :=
        [(("k1".data : List Char), { emptyStats with count := 2 }),
         ("k2".data, { emptyStats with count := 1 }),
         ("k3".data, { emptyStats with count := 1 })] }).2
    ("k2".data, { emptyStats with count := 1 })
    ("k3".data, { emptyStats with count := 1 }) rfl (by decide)

/-- C8: an input containing a method line that matches none of the
seven allocation-call grammars (at a point where the state machine is
ready for a new event) makes the run fail: the parse aborts with
`error(...)`, the process exits with code 1, and the output contains
only the "Parsing" banner — none of the Comments / Backtraces /
Memory-not-released sections is emitted. -/
theorem c8_unexpected_line_aborts (resolve : List Char → List Char)
    (pre post : List (List Char)) (line : List Char) (st : St) (tid : List Char)
    (hpre : parseAux resolve initSt pre = (st, none))
    (hst : st.status = .READY ∨ st.status = .THREAD)
    (hskip : skippable (rstrip line) = false)
    (hpfx : lstarts "* ".data (rstrip line) = true)
    (hfdr : firstDigitRun (rstrip line) = some tid)
    (hno : methodNoMatch ((rstrip line).drop (3 + tid.length)) = true) :
    runProgram resolve (pre ++ line :: post) = ([OutItem.header "Parsing".data], 1) := by
  have estep : stepLine resolve st line = .error .exitOne := by
    rcases hst with h | h
    · simp [stepLine, stepBody, h, hskip, hpfx, hfdr, threadReset]
      exact handleMethod_noMatch _ _ hno
    · simp [stepLine, stepBody, h, hskip, hpfx, hfdr]
      exact handleMethod_noMatch _ _ hno
  have hall : parseTrace resolve (pre ++ line :: post) = (st, some Err.exitOne) := by
    unfold parseTrace
    rw [parseAux_append, hpre]
    show parseAux resolve st (line :: post) = (st, some Err.exitOne)
    conv_lhs => unfold parseAux
    rw [estep]
  unfold runProgram
  rw [hall]

/-- Witness for C8 at a concrete input: the method line `* 1 foo()`
matches no grammar; the run exits 1 having printed only the Parsing
banner. -/
theorem c8_witness :
    runProgram (fun x => x) ([] ++ "* 1 foo()".data :: []) =
      ([OutItem.header "Parsing".data], 1) :=
  c8_unexpected_line_aborts (fun x => x) [] [] "* 1 foo()".data initSt "1".data rfl
    (Or.inl rfl) (by decide) (by decide) (by decide) (by decide)

/-- C10 (amended): for an address that is NOT the null marker `(nil)`
(whose recorded size is always `null`, see the counterexample), a
`free(ADDR)` event while the Ledger already maps ADDR to a sentinel
string records that sentinel string itself as the event's size; it is
appended to the `free` size list of the event's backtrace entry, and
the Backtraces section prints that list. -/
theorem c10_sentinel_free_size (resolve : List Char → List Char) (st : St) (A v : List Char)
    (h : st.status = .READY) (hnil : A ≠ "(nil)".data)
    (_hsent : v = sentinelFreed ∨ v = sentinelRealloced)
    (hv : alookup A st.mallocs = some (PyVal.pstr v)) :
    (parseAux resolve st ["* 1 free(".data ++ A ++ ")".data, "[".data,
      "]".data]).1.allocSize = PyVal.pstr v ∧
    (∃ s : Stats,
      alookup "Thread 1".data (parseAux resolve st ["* 1 free(".data ++ A ++ ")".data,
        "[".data, "]".data]).1.backtraces = some s ∧
      s.free = ((alookup "Thread 1".data st.backtraces).getD emptyStats).free
        ++ [PyVal.pstr v] ∧
      OutItem.line (methodName Method.free ++ ": ".data ++ renderPyList s.free) ∈
        emitBacktraces (sortByCount (parseAux resolve st ["* 1 free(".data ++ A ++ ")".data,
          "[".data, "]".data]).1.backtraces)) := by
  have E := parseAux_free_event resolve st A h
  have hfs : freeSize st.mallocs A = PyVal.pstr v := by
    unfold freeSize
    rw [if_neg hnil, hv]
  rw [E]
  constructor
  · exact hfs
  · refine ⟨bumpStats Method.free (freeSize st.mallocs A)
      ((alookup "Thread 1".data st.backtraces).getD emptyStats), ?_, ?_, ?_⟩
    · exact alookup_aset_self _ _ _
    · rw [hfs]
      rfl
    · have hfree : (bumpStats Method.free (freeSize st.mallocs A)
          ((alookup "Thread 1".data st.backtraces).getD emptyStats)).free ≠ [] := by
        rw [show (bumpStats Method.free (freeSize st.mallocs A)
            ((alookup "Thread 1".data st.backtraces).getD emptyStats)).free =
          ((alookup "Thread 1".data st.backtraces).getD emptyStats).free
            ++ [freeSize st.mallocs A] from rfl]
        simp
      have hmem := alookup_mem _ _ _ (alookup_aset_self "Thread 1".data
        (bumpStats Method.free (freeSize st.mallocs A)
          ((alookup "Thread 1".data st.backtraces).getD emptyStats))
        st.backtraces)
      have hmem2 : ("Thread 1".data, bumpStats Method.free (freeSize st.mallocs A)
          ((alookup "Thread 1".data st.backtraces).getD emptyStats)) ∈
          sortByCount (aset "Thread 1".data
            (bumpStats Method.free (freeSize st.mallocs A)
              ((alookup "Thread 1".data st.backtraces).getD emptyStats))
            st.backtraces) := by
        rw [(sortByCount_perm _).mem_iff]
        exact hmem
      exact mem_emitBacktraces _ _ _ _ hmem2 (free_line_mem_entryLines _ _ hfree)

/-- Witness for C10 at a concrete input: `0x7` is already marked
ALREADY_FREED in the ledger; freeing it again records the sentinel
string as the size. -/
theorem c10_witness :
    (parseAux (fun x => x)
      { initSt with mallocs := [("0x7".data, PyVal.pstr sentinelFreed)] }
      ["* 1 free(".data ++ "0x7".data ++ ")".data, "[".data, "]".data]).1.allocSize
      = PyVal.pstr sentinelFreed :=
  (c10_sentinel_free_size (fun x => x)
    { initSt with mallocs := [("0x7".data, PyVal.pstr sentinelFreed)] }
    "0x7".data sentinelFreed rfl (by decide) (Or.inl rfl) (by decide)).1

/-- C9: the liveness invariant holds at every well-parsed end state:
when the whole input was consumed without error and the parser is
between events (READY, or THREAD after trailing comment lines), every
ledger entry whose value is not a `*`-sentinel has a LiveAddressBacktrace
binding; consequently the "Memory not released" loop's `membt[key]`
lookup never raises KeyError for any address it prints. -/
theorem c9_live_backtrace_invariant (resolve : List Char → List Char)
    (lines : List (List Char))
    (hok : (parseTrace resolve lines).2 = none)
    (hst : (parseTrace resolve lines).1.status = .READY ∨
      (parseTrace resolve lines).1.status = .THREAD) :
    (∀ a v, alookup a (parseTrace resolve lines).1.mallocs = some v →
      startsStar v = false →
      (alookup a (parseTrace resolve lines).1.membt).isSome = true) ∧
    (emitMem (parseTrace resolve lines).1.mallocs
      (parseTrace resolve lines).1.membt).2 ≠ some Err.keyError := by
  have hrun : parseAux resolve initSt lines = ((parseTrace resolve lines).1, none) := by
    rw [show parseAux resolve initSt lines = parseTrace resolve lines from rfl]
    rw [show parseTrace resolve lines =
      ((parseTrace resolve lines).1, (parseTrace resolve lines).2) from rfl]
    rw [hok]
  have hinv := parseAux_inv resolve lines initSt _ hrun inv_initSt
  have hstrong : ∀ e ∈ (parseTrace resolve lines).1.mallocs, startsStar e.2 = false →
      (alookup e.1 (parseTrace resolve lines).1.membt).isSome = true := by
    intro e he hstar
    rcases hinv.2 e he hstar with hs | ⟨hor, _⟩
    · exact hs
    · rcases hst with h2 | h2 <;> rcases hor with h3 | h3 <;>
        (rw [h2] at h3; exact ParsingStatus.noConfusion h3)
  constructor
  · intro a v hl hstar
    have := hstrong (a, v) (alookup_mem _ _ _ hl) hstar
    exact this
  · exact emitMem_no_keyError _ _ hstrong

/-- Witness for C9 at a concrete input: after `malloc(4) = 0x1` the
live-backtrace table binds the leaked address `0x1`. -/
theorem c9_witness :
    (alookup "0x1".data (parseTrace (fun x => x)
      ["* 1 malloc(4) = 0x1".data, "[".data, "]".data]).1.membt).isSome = true :=
  (c9_live_backtrace_invariant (fun x => x)
      ["* 1 malloc(4) = 0x1".data, "[".data, "]".data] (by decide)
      (Or.inl (by decide))).1
    "0x1".data (PyVal.pstr "4".data) (by decide) (by decide)

theorem parseAux_two_events (resolve : List Char → List Char) (t1 t2 : Char)
    (F1 F2 : List Char) (bt1 bt2 : BT)
    (ht1 : t1.isDigit = true) (ht2 : t2.isDigit = true)
    (hr1 : rstrip F1 = F1) (hs1 : skippable F1 = false)
    (hF1 : parseBT F1 = some bt1) (hm1 : btMatch bt1 backtrace_filter_out = false)
    (hr2 : rstrip F2 = F2) (hs2 : skippable F2 = false)
    (hF2 : parseBT F2 = some bt2) (hm2 : btMatch bt2 backtrace_filter_out = false) :
    (parseAux resolve initSt (mkEv t1 F1 ++ mkEv t2 F2)).1.backtraces.map Prod.fst =
      if evKey resolve t1 bt1 = evKey resolve t2 bt2
      then [evKey resolve t1 bt1]
      else [evKey resolve t1 bt1, evKey resolve t2 bt2] := by
  have e1 := parseAux_malloc_frame_event resolve initSt t1 F1 bt1 rfl ht1 hr1 hs1 hF1 hm1
  have e2 := parseAux_malloc_frame_event resolve
      { status := .READY, threadId := some [t1], method := some Method.malloc,
        allocSize := PyVal.pstr ['8'], address := some "0x1".data,
        currentBackTrace := evKey resolve t1 bt1,
        mallocs := aset "0x1".data (PyVal.pstr ['8']) initSt.mallocs,
        membt := aset "0x1".data (evKey resolve t1 bt1) initSt.membt,
        backtraces := aset (evKey resolve t1 bt1)
          (bumpStats Method.malloc (PyVal.pstr ['8'])
            ((alookup (evKey resolve t1 bt1) initSt.backtraces).getD emptyStats))
          initSt.backtraces,
        comments := initSt.comments }
      t2 F2 bt2 rfl ht2 hr2 hs2 hF2 hm2
  have cA : parseAux resolve initSt (mkEv t1 F1 ++ mkEv t2 F2) =
      parseAux resolve
        { status := .READY, threadId := some [t1], method := some Method.malloc,
          allocSize := PyVal.pstr ['8'], address := some "0x1".data,
          currentBackTrace := evKey resolve t1 bt1,
          mallocs := aset "0x1".data (PyVal.pstr ['8']) initSt.mallocs,
          membt := aset "0x1".data (evKey resolve t1 bt1) initSt.membt,
          backtraces := aset (evKey resolve t1 bt1)
            (bumpStats Method.malloc (PyVal.pstr ['8'])
              ((alookup (evKey resolve t1 bt1) initSt.backtraces).getD emptyStats))
            initSt.backtraces,
          comments := initSt.comments }
        (mkEv t2 F2) := by
    rw [parseAux_append, e1]
  rw [cA, e2]
  exact map_fst_aset_two _ _ _ _

/-- C2 (amended): the aggregation key is the event's `Thread {id}` seed
joined by a newline to the filtered, resolved frame rendering, so
grouping is NOT a function of the rendering alone: two single-frame
events recorded by the same thread aggregate into one BacktraceStats
entry iff their filtered, resolved frame renderings are identical,
while the same two events recorded by different threads always occupy
two distinct entries, even when the renderings coincide. -/
theorem c2_thread_scoped_grouping (resolve : List Char → List Char)
    (F1 F2 : List Char) (bt1 bt2 : BT)
    (hr1 : rstrip F1 = F1) (hs1 : skippable F1 = false)
    (hF1 : parseBT F1 = some bt1) (hm1 : btMatch bt1 backtrace_filter_out = false)
    (hr2 : rstrip F2 = F2) (hs2 : skippable F2 = false)
    (hF2 : parseBT F2 = some bt2) (hm2 : btMatch bt2 backtrace_filter_out = false) :
    ((parseAux resolve initSt (mkEv '1' F1 ++ mkEv '1' F2)).1.backtraces.map Prod.fst =
        if renderBT resolve bt1 = renderBT resolve bt2
        then [evKey resolve '1' bt1]
        else [evKey resolve '1' bt1, evKey resolve '1' bt2]) ∧
    ((parseAux resolve initSt (mkEv '1' F1 ++ mkEv '2' F2)).1.backtraces.map Prod.fst =
        [evKey resolve '1' bt1, evKey resolve '2' bt2]) := by
  have hiff : (evKey resolve '1' bt1 = evKey resolve '1' bt2) ↔
      (renderBT resolve bt1 = renderBT resolve bt2) := by
    constructor
    · intro hk
      exact List.append_cancel_left
        (show (("Thread ".data ++ ['1']) ++ ['\n']) ++ renderBT resolve bt1 =
          (("Thread ".data ++ ['1']) ++ ['\n']) ++ renderBT resolve bt2 from hk)
    · intro hren
      show (("Thread ".data ++ ['1']) ++ ['\n']) ++ renderBT resolve bt1 =
        (("Thread ".data ++ ['1']) ++ ['\n']) ++ renderBT resolve bt2
      rw [hren]
  constructor
  · rw [parseAux_two_events resolve '1' '1' F1 F2 bt1 bt2 (by decide) (by decide)
      hr1 hs1 hF1 hm1 hr2 hs2 hF2 hm2]
    by_cases hc : renderBT resolve bt1 = renderBT resolve bt2
    · rw [if_pos hc, if_pos (hiff.mpr hc)]
    · rw [if_neg hc, if_neg (fun hk => hc (hiff.mp hk))]
  · have hne : ¬ (evKey resolve '1' bt1 = evKey resolve '2' bt2) := by
      intro hk
      have h7 : (evKey resolve '1' bt1).get? 7 = (evKey resolve '2' bt2).get? 7 :=
        congrArg (fun l => l.get? 7) hk
      have h1 : (evKey resolve '1' bt1).get? 7 = some '1' := rfl
      have h2 : (evKey resolve '2' bt2).get? 7 = some '2' := rfl
      have hbad : (some '1' : Option Char) = some '2' := h1.symm.trans (h7.trans h2)
      exact absurd (Option.some.inj hbad) (by decide)
    rw [parseAux_two_events resolve '1' '2' F1 F2 bt1 bt2 (by decide) (by decide)
      hr1 hs1 hF1 hm1 hr2 hs2 hF2 hm2, if_neg hne]

/-- Witness for C2 at concrete frames `a.so(f+1)[0x2]` and
`b.so(g+3)[0x4]` recorded by threads 1 and 2. -/
theorem c2_witness :
    (parseAux (fun x => x) initSt
        (mkEv '1' "a.so(f+1)[0x2]".data ++ mkEv '2' "b.so(g+3)[0x4]".data)).1.backtraces.map
        Prod.fst =
      [evKey (fun x => x) '1' ⟨"a.so".data, "f".data, "1".data, "0x2".data⟩,
       evKey (fun x => x) '2' ⟨"b.so".data, "g".data, "3".data, "0x4".data⟩] :=
  (c2_thread_scoped_grouping (fun x => x) "a.so(f+1)[0x2]".data "b.so(g+3)[0x4]".data
    ⟨"a.so".data, "f".data, "1".data, "0x2".data⟩
    ⟨"b.so".data, "g".data, "3".data, "0x4".data⟩
    (by decide) (by decide) (by decide) (by decide)
    (by decide) (by decide) (by decide) (by decide)).2

end Mtrace
